import Mathlib

/-!
Verification development for the weldx core data model (`weldx/core.py`):
`MathematicalExpression`, `TimeSeries` and `GenericSeries`.

The Python code is shallowly embedded.  Physical units (pint) are modelled as
normalized association lists of unit atoms with integer exponents; labeled
arrays (xarray `DataArray`) carry named dimensions, a shape, a value function
on multi-indices, an optional payload unit (a dequantified array has `none`),
coordinates and string attributes.  Fallible Python code returns `Except`;
the error type mirrors the Python exception classes that the source code
raises and catches.  A dimension-name string used by the source where a list
of dimension names is expected is modelled as a one-element list.
-/

namespace WeldxSpec

/-- Python exception classes raised or caught by `weldx/core.py`. -/
inductive PyErr where
  | dimensionality : PyErr
  | valueError : String → PyErr
  | keyError : String → PyErr
  | typeError : String → PyErr
  | exception : String → PyErr
deriving DecidableEq, Repr

/-- The message text carried by an exception (Python `str(e)`). -/
def pyMsg : PyErr → String
  | .dimensionality => "DimensionalityError"
  | .valueError m => m
  | .keyError m => m
  | .typeError m => m
  | .exception m => m

/-- An exact rational value, kept as an explicit numerator-denominator pair
so that every arithmetic step reduces inside the kernel.  Denominators stay
positive along all operations used here; values are not canonicalized, and
the concrete computations of this development never compare two different
representations of the same number. -/
structure Frac where
  n : Int
  d : Int
deriving DecidableEq, Repr

/-- Integer as a fraction. -/
def qOfInt (n : Int) : Frac := ⟨n, 1⟩

instance (n : Nat) : OfNat Frac n := ⟨⟨(n : Int), 1⟩⟩

/-- Fraction addition. -/
def qadd (a b : Frac) : Frac := ⟨a.n * b.d + b.n * a.d, a.d * b.d⟩

/-- Fraction subtraction. -/
def qsub (a b : Frac) : Frac := ⟨a.n * b.d - b.n * a.d, a.d * b.d⟩

/-- Fraction multiplication. -/
def qmul (a b : Frac) : Frac := ⟨a.n * b.n, a.d * b.d⟩

/-- Fraction division, keeping the denominator positive. -/
def qdiv (a b : Frac) : Frac :=
  if 0 ≤ b.n then ⟨a.n * b.d, a.d * b.n⟩ else ⟨-(a.n * b.d), -(a.d * b.n)⟩

instance : Add Frac := ⟨qadd⟩

instance : Sub Frac := ⟨qsub⟩

instance : Mul Frac := ⟨qmul⟩

instance : Div Frac := ⟨qdiv⟩

/-- Fraction order (valid for positive denominators). -/
def qle (a b : Frac) : Prop := a.n * b.d ≤ b.n * a.d

/-- Strict fraction order (valid for positive denominators). -/
def qlt (a b : Frac) : Prop := a.n * b.d < b.n * a.d

instance : LE Frac := ⟨qle⟩

instance : LT Frac := ⟨qlt⟩

instance (a b : Frac) : Decidable (a ≤ b) := by
  show Decidable (qle a b)
  unfold qle
  infer_instance

instance (a b : Frac) : Decidable (a < b) := by
  show Decidable (qlt a b)
  unfold qlt
  infer_instance

/-- Natural power of a fraction. -/
def qpowN (q : Frac) : Nat → Frac
  | 0 => 1
  | n + 1 => q * qpowN q n

/-- A pint unit: a name-sorted association list of unit atoms with nonzero
integer exponents (pint's `UnitsContainer`). -/
abbrev UnitEx := List (String × Int)

/-- The physical dimension of a unit atom (pint registry data). -/
def atomDim (a : String) : String :=
  if a = "second" ∨ a = "minute" ∨ a = "hour" then "time"
  else if a = "meter" ∨ a = "millimeter" ∨ a = "kilometer" then "length"
  else a

/-- Conversion factor of a unit atom to the base atom of its dimension
(pint registry data; seconds and meters are the base atoms). -/
def atomFactor (a : String) : Frac :=
  if a = "minute" then 60
  else if a = "hour" then 3600
  else if a = "millimeter" then 1 / 1000
  else if a = "kilometer" then 1000
  else 1

/-- Lexicographic order on character lists by code point, written as a
structurally recursive Boolean so the kernel evaluates it. -/
def chLt : List Char → List Char → Bool
  | [], [] => false
  | [], _ :: _ => true
  | _ :: _, [] => false
  | a :: as, b :: bs =>
    if a.toNat < b.toNat then true
    else if b.toNat < a.toNat then false
    else chLt as bs

/-- Lexicographic order on strings (the order pint sorts unit atoms by). -/
def strLt (a b : String) : Bool := chLt a.data b.data

/-- Insert one atom with an exponent into a normalized unit, merging equal
atoms and dropping zero exponents. -/
def uAdd : UnitEx → String → Int → UnitEx
  | [], n, e => if e = 0 then [] else [(n, e)]
  | (m, f) :: rest, n, e =>
    if strLt n m then (if e = 0 then (m, f) :: rest else (n, e) :: (m, f) :: rest)
    else if n = m then (if f + e = 0 then rest else (n, f + e) :: rest)
    else (m, f) :: uAdd rest n e

/-- Multiply two units (exponents add; pint unit arithmetic). -/
def uMul (u v : UnitEx) : UnitEx := v.foldl (fun acc p => uAdd acc p.1 p.2) u

/-- Normalize an arbitrary atom-exponent list into a unit. -/
def uOfList (l : List (String × Int)) : UnitEx := uMul [] l

/-- The dimensionality of a unit (pint `Unit.dimensionality`). -/
def uDimen (u : UnitEx) : UnitEx :=
  u.foldl (fun acc p => uAdd acc (atomDim p.1) p.2) []

/-- Integer power of a rational, written out so the kernel evaluates it. -/
def qpow (q : Frac) : Int → Frac
  | .ofNat n => qpowN q n
  | .negSucc n => qdiv 1 (qpowN q (n + 1))

/-- Conversion factor of a unit to the base units of its dimensions. -/
def uFactor (u : UnitEx) : Frac := u.foldl (fun acc p => acc * qpow (atomFactor p.1) p.2) 1

/-- Conversion factor from unit `u` to unit `v`; `none` on a dimensionality
mismatch (pint raises `DimensionalityError` there). -/
def uConvert (u v : UnitEx) : Option Frac :=
  if uDimen u = uDimen v then some (uFactor u / uFactor v) else none

/-- One unit atom per dimension (pint `to_reduced_units().units`): exponents of
atoms sharing a dimension are merged onto the first such atom. -/
def uReduce (u : UnitEx) : UnitEx :=
  uOfList ((u.foldl (fun (acc : List (String × Int)) p =>
    match acc.find? (fun q => atomDim q.1 = atomDim p.1) with
    | some q => acc.map (fun r => if r.1 = q.1 then (r.1, r.2 + p.2) else r)
    | none => acc ++ [p]) []).filter (fun p => p.2 ≠ 0))

/-- The dimensionless unit. -/
def uOne : UnitEx := []

/-- The unit `second`. -/
def uSecond : UnitEx := [("second", 1)]

/-- The unit `hour`. -/
def uHour : UnitEx := [("hour", 1)]

/-- The unit `meter`. -/
def uMeter : UnitEx := [("meter", 1)]

/-- The unit `meter / second`. -/
def uMeterPerSecond : UnitEx := [("meter", 1), ("second", -1)]

/-- Whether an xarray coordinate array holds `timedelta64` values or plain
numbers. -/
inductive CoordKind where
  | timedelta : CoordKind
  | plain : CoordKind
deriving DecidableEq, Repr

/-- An xarray coordinate: its values, their dtype kind, and the optional
`units` attribute a dequantified coordinate carries. -/
structure Coord where
  vals : List Frac
  kind : CoordKind
  unitAttr : Option UnitEx
deriving DecidableEq, Repr

/-- A pint quantity: a shape, the values as a function on multi-indices and
the unit; a scalar has shape `[]`. -/
structure PQuantity where
  qshape : List Nat
  qval : List Nat → Frac
  unit : UnitEx

/-- An xarray `DataArray`: named dimensions (outer first), their sizes, the
values as a function on multi-indices, the payload unit (`none` for a plain,
dequantified array), coordinates and string attributes. -/
structure DataArray where
  dims : List String
  shape : List Nat
  val : List Nat → Frac
  unit : Option UnitEx
  coords : List (String × Coord)
  attrs : List (String × String)

/-- All multi-indices of a shape, in row-major order. -/
def allIdx : List Nat → List (List Nat)
  | [] => [[]]
  | n :: s => (List.range n).flatMap (fun i => (allIdx s).map (fun ix => i :: ix))

/-- The values of an array listed in row-major order (used to compare arrays,
as xarray comparisons compare every element). -/
def valuesList (da : DataArray) : List Frac := (allIdx da.shape).map da.val

/-- The values of a quantity listed in row-major order. -/
def valuesListQ (p : PQuantity) : List Frac := (allIdx p.qshape).map p.qval

/-- xarray `identical`: same dimensions, shape, values, payload unit,
coordinates and attributes. -/
def identicalDA (a b : DataArray) : Prop :=
  a.dims = b.dims ∧ a.shape = b.shape ∧ valuesList a = valuesList b ∧
  a.unit = b.unit ∧ a.coords = b.coords ∧ a.attrs = b.attrs

instance (a b : DataArray) : Decidable (identicalDA a b) := by
  unfold identicalDA; infer_instance

/-- Payload unit with a plain array read as dimensionless, matching how pint
treats bare numbers in arithmetic. -/
def unitOf (da : DataArray) : UnitEx := da.unit.getD []

/-- Set or overwrite a key in an association list (Python dict assignment). -/
def setAssoc {α : Type} (l : List (String × α)) (k : String) (v : α) :
    List (String × α) :=
  if l.any (fun p => p.1 = k) then l.map (fun p => if p.1 = k then (k, v) else p)
  else l ++ [(k, v)]

/-- Remove a key from an association list (Python dict `pop`). -/
def removeAssoc {α : Type} (l : List (String × α)) (k : String) :
    List (String × α) :=
  l.filter (fun p => p.1 ≠ k)

/-- The size of the named dimension of an array, if present. -/
def sizeOfDim (da : DataArray) (d : String) : Option Nat :=
  (da.dims.zip da.shape).lookup d

/-- The operand multi-index corresponding to a result multi-index under
xarray broadcasting by dimension name. -/
def subIdx (rdims : List String) (ix : List Nat) (odims : List String) :
    List Nat :=
  odims.map (fun d => match rdims.findIdx? (fun x => x = d) with
    | some i => ix.getD i 0
    | none => 0)

/-- Message of the xarray alignment error for a shared dimension with two
different lengths. -/
def msgConflictingSizes (d : String) : String :=
  "conflicting sizes for dimension " ++ d

/-- Message of the xarray alignment error for a shared dimension carrying two
different coordinate arrays. -/
def msgConflictingCoords (d : String) : String :=
  "conflicting coordinates for dimension " ++ d

/-- The alignment check of xarray broadcasting: every dimension shared by
both operands must have the same size and, when both carry coordinates for
it, the same coordinates. -/
def alignCheck (a b : DataArray) : List String → Except PyErr Unit
  | [] => .ok ()
  | d :: rest =>
    if b.dims.contains d then
      if sizeOfDim a d ≠ sizeOfDim b d then
        .error (.valueError (msgConflictingSizes d))
      else if (a.coords.lookup d).isSome ∧ (b.coords.lookup d).isSome ∧
          a.coords.lookup d ≠ b.coords.lookup d then
        .error (.valueError (msgConflictingCoords d))
      else alignCheck a b rest
    else alignCheck a b rest

/-- Broadcast two arrays by dimension name (xarray semantics): shared
dimensions must have equal sizes and equal coordinates; the result has the
left operand's dimensions followed by the right operand's new ones. -/
def broadcastOf (a b : DataArray) :
    Except PyErr (List String × List Nat × List (String × Coord)) := do
  alignCheck a b a.dims
  let rdims := a.dims ++ b.dims.filter (fun d => ¬ a.dims.contains d)
  let rshape := rdims.map (fun d => ((sizeOfDim a d).orElse (fun _ => sizeOfDim b d)).getD 0)
  let rcoords := rdims.filterMap (fun d =>
    match (a.coords.lookup d).orElse (fun _ => b.coords.lookup d) with
    | some c => some (d, c)
    | none => none)
  return (rdims, rshape, rcoords)

/-- Addition of two arrays: broadcast, convert the right payload to the left
unit (pint), add pointwise; attrs are dropped (xarray default). -/
def addDA (a b : DataArray) : Except PyErr DataArray := do
  let r ← broadcastOf a b
  match uConvert (unitOf b) (unitOf a) with
  | none => throw .dimensionality
  | some f =>
    return ⟨r.1, r.2.1,
      fun ix => a.val (subIdx r.1 ix a.dims) + f * b.val (subIdx r.1 ix b.dims),
      some (unitOf a), r.2.2, []⟩

/-- Multiplication of two arrays: broadcast, multiply pointwise, multiply the
units (pint); attrs are dropped. -/
def mulDA (a b : DataArray) : Except PyErr DataArray := do
  let r ← broadcastOf a b
  return ⟨r.1, r.2.1,
    fun ix => a.val (subIdx r.1 ix a.dims) * b.val (subIdx r.1 ix b.dims),
    some (uMul (unitOf a) (unitOf b)), r.2.2, []⟩

/-- A dimensionless scalar constant as an array. -/
def scalarDA (q : Frac) : DataArray := ⟨[], [], fun _ => q, some [], [], []⟩

/-- A scalar quantity `Q_(q, u)`. -/
def scalarQ (q : Frac) (u : UnitEx) : PQuantity := ⟨[], fun _ => q, u⟩

/-- A one-dimensional quantity `Q_(l, u)`. -/
def listQ (l : List Frac) (u : UnitEx) : PQuantity :=
  ⟨[l.length], fun ix => l.getD (ix.getD 0 0) 0, u⟩

/-- xarray default dimension names `dim_0, dim_1, ...`. -/
def defaultDims (n : Nat) : List String :=
  (List.range n).map (fun i => "dim_" ++ toString i)

/-- `xr.DataArray(quantity)`: default dimension names, no coordinates. -/
def daOfQ (p : PQuantity) : DataArray :=
  ⟨defaultDims p.qshape.length, p.qshape, p.qval, some p.unit, [], []⟩

/-- Message of the xarray error for `xr.DataArray(data, dims=...)` when the
number of dimension names does not match the rank of the data. -/
def msgDimsMismatch : String :=
  "different number of dimensions on data and dims"

/-- `xr.DataArray(quantity, dims=ds)`: explicit dimension names, which must
match the rank of the data. -/
def mkDAofQ (p : PQuantity) (ds : List String) : Except PyErr DataArray :=
  if ds.length = p.qshape.length then
    .ok ⟨ds, p.qshape, p.qval, some p.unit, [], []⟩
  else .error (.valueError msgDimsMismatch)

/-- A sympy expression over named free symbols, restricted to the operations
the embedded code exercises. -/
inductive SymExpr where
  | var : String → SymExpr
  | const : Frac → SymExpr
  | add : SymExpr → SymExpr → SymExpr
  | mul : SymExpr → SymExpr → SymExpr
deriving DecidableEq, Repr

/-- Append keeping the first occurrence of every element. -/
def dedupAppend (xs ys : List String) : List String :=
  xs ++ ys.filter (fun y => ¬ xs.contains y)

/-- The free symbols of an expression (sympy `free_symbols`), in a fixed
traversal order and without duplicates. -/
def SymExpr.freeSymbols : SymExpr → List String
  | .var n => [n]
  | .const _ => []
  | .add a b => dedupAppend a.freeSymbols b.freeSymbols
  | .mul a b => dedupAppend a.freeSymbols b.freeSymbols

/-- Evaluate an expression in an environment of named arrays (the function
`sympy.lambdify` builds, applied to xarray arguments); a symbol missing from
the environment is a Python `TypeError` (missing lambdify argument). -/
def SymExpr.evalEnv (env : List (String × DataArray)) : SymExpr → Except PyErr DataArray
  | .var n =>
    match env.lookup n with
    | some d => .ok d
    | none => .error (.typeError ("missing a required argument " ++ n))
  | .const q => .ok (scalarDA q)
  | .add a b => do
    let ra ← a.evalEnv env
    let rb ← b.evalEnv env
    addDA ra rb
  | .mul a b => do
    let ra ← a.evalEnv env
    let rb ← b.evalEnv env
    mulDA ra rb

/-- A value bound to an expression parameter after coercion: a pint quantity
or an xarray array. -/
abbrev MEParamVal := Sum PQuantity DataArray

/-- A value supplied for an expression parameter before coercion: a quantity,
a `(quantity, dimension-names)` tuple or an array. -/
inductive MEParamIn where
  | q : PQuantity → MEParamIn
  | tup : PQuantity → List String → MEParamIn
  | da : DataArray → MEParamIn

/-- `weldx.core.MathematicalExpression`: a sympy expression plus bound
parameters. -/
structure MathematicalExpression where
  expression : SymExpr
  parameters : List (String × MEParamVal)

/-- Message of the error raised by `set_parameters` for a name that is not a
free symbol of the expression. -/
def msgNoSuchParameter (k : String) : String :=
  "The expression does not have a parameter " ++ k

/-- The validation-and-coercion loop of `set_parameters` over the supplied
entries, threading the parameter dictionary. -/
def setParamsLoop (fs : List String) :
    List (String × MEParamVal) → List (String × MEParamIn) →
    Except PyErr (List (String × MEParamVal))
  | ps, [] => .ok ps
  | ps, p :: rest =>
    if ¬ fs.contains p.1 then .error (.valueError (msgNoSuchParameter p.1))
    else match p.2 with
      | .tup v ds => do
        let d ← mkDAofQ v ds
        setParamsLoop fs (setAssoc ps p.1 (.inr d)) rest
      | .q v => setParamsLoop fs (setAssoc ps p.1 (.inl v)) rest
      | .da d => setParamsLoop fs (setAssoc ps p.1 (.inr d)) rest

/-- `MathematicalExpression.set_parameters`: every key must be a free symbol
of the expression; a tuple value becomes an array with the given dimension
names, any other value is coerced to a quantity. -/
def MathematicalExpression.set_parameters (me : MathematicalExpression)
    (params : List (String × MEParamIn)) : Except PyErr MathematicalExpression := do
  let ps ← setParamsLoop me.expression.freeSymbols me.parameters params
  return ⟨me.expression, ps⟩

/-- `MathematicalExpression.set_parameter`: bind a single parameter. -/
def MathematicalExpression.set_parameter (me : MathematicalExpression)
    (k : String) (v : MEParamIn) : Except PyErr MathematicalExpression :=
  me.set_parameters [(k, v)]

/-- `MathematicalExpression.num_parameters`. -/
def MathematicalExpression.num_parameters (me : MathematicalExpression) : Nat :=
  me.parameters.length

/-- `MathematicalExpression.num_variables`: free symbols minus bound
parameters. -/
def MathematicalExpression.num_variables (me : MathematicalExpression) : Nat :=
  me.expression.freeSymbols.length - me.parameters.length

/-- `MathematicalExpression.get_variable_names`: free symbols that are not
bound parameters. -/
def MathematicalExpression.get_variable_names (me : MathematicalExpression) :
    List String :=
  me.expression.freeSymbols.filter
    (fun v => ¬ me.parameters.any (fun p => p.1 = v))

/-- Message of the ambiguous-rebinding error raised by `evaluate` when a
supplied variable is already bound as a parameter. -/
def msgAlreadyDefined (inter : List String) : String :=
  "The variables " ++ String.intercalate ", " inter ++
    " are already defined as parameters."

/-- How `evaluate` wraps each supplied variable and each stored parameter
before applying the lambdified function: quantities become arrays with
default dimension names. -/
def wrapArg (v : MEParamVal) : DataArray :=
  match v with
  | .inl p => daOfQ p
  | .inr d => d

/-- The environment `evaluate` hands to the lambdified function. -/
def evalEnvOf (me : MathematicalExpression) (kwargs : List (String × MEParamVal)) :
    List (String × DataArray) :=
  kwargs.map (fun p => (p.1, wrapArg p.2)) ++
    me.parameters.map (fun p => (p.1, wrapArg p.2))

/-- `MathematicalExpression.evaluate`: fails with the ambiguous-rebinding
error when a supplied name is already a parameter, otherwise evaluates the
lambdified function on the coerced arguments. -/
def MathematicalExpression.evaluate (me : MathematicalExpression)
    (kwargs : List (String × MEParamVal)) : Except PyErr DataArray :=
  if ((kwargs.map (fun p => p.1)).filter
      (fun k => me.parameters.any (fun p => p.1 = k))) ≠ [] then
    .error (.valueError (msgAlreadyDefined ((kwargs.map (fun p => p.1)).filter
      (fun k => me.parameters.any (fun p => p.1 = k)))))
  else me.expression.evalEnv (evalEnvOf me kwargs)

/-- Deep equality of two coerced parameter values (`weldx.util.compare_nested`
on the parameter dictionaries compares every element). -/
def paramValEq (a b : MEParamVal) : Prop :=
  match a, b with
  | .inl p, .inl q =>
    p.qshape = q.qshape ∧ valuesListQ p = valuesListQ q ∧ p.unit = q.unit
  | .inr d, .inr e => identicalDA d e
  | _, _ => False

/-- `MathematicalExpression.__eq__`: structural equality of the expressions
and deep equality of the parameter dictionaries. -/
def meEq (a b : MathematicalExpression) : Prop :=
  a.expression = b.expression ∧
  a.parameters.length = b.parameters.length ∧
  ∀ p ∈ a.parameters.zip b.parameters,
    p.1.1 = p.2.1 ∧ paramValEq p.1.2 p.2.2

instance (a b : MEParamVal) : Decidable (paramValEq a b) := by
  unfold paramValEq
  cases a <;> cases b <;> infer_instance

instance (a b : MathematicalExpression) : Decidable (meEq a b) := by
  unfold meEq; infer_instance

/-- Modelled from the spec: `weldx.time.Time` (the module is not part of the
embedded sources), a sequence of time deltas with an optional absolute
reference timestamp; deltas and the reference are kept in seconds. -/
structure Time where
  vals : List Frac
  ref : Option Frac
deriving DecidableEq, Repr

/-- Modelled from the spec: a time-like constructor argument, either a `Time`
or a pint quantity of time deltas. -/
abbrev TimeArg := Sum Time PQuantity

/-- Modelled from the spec: `Time(arg)` — a quantity must have time
dimensionality (otherwise pint signals a dimensionality mismatch) and is
converted to seconds. -/
def timeOf (arg : TimeArg) : Except PyErr Time :=
  match arg with
  | .inl t => .ok t
  | .inr p =>
    if uDimen p.unit = [("time", 1)] then
      .ok ⟨(valuesListQ p).map (fun q => q * uFactor p.unit), none⟩
    else .error .dimensionality

/-- Modelled from the spec: `Time(time, reference_time)` keeps the existing
reference time when there is one. -/
def Time.withRef (t : Time) (r : Option Frac) : Time :=
  ⟨t.vals, t.ref.orElse (fun _ => r)⟩

/-- Modelled from the spec: `Time.as_quantity(unit)` — the deltas converted
from seconds into the requested unit. -/
def Time.asQuantity (t : Time) (u : UnitEx) : PQuantity :=
  ⟨[t.vals.length], fun ix => (t.vals.getD (ix.getD 0 0) 0) / uFactor u, u⟩

/-- Modelled from the spec: the timedelta coordinate array of a `Time`. -/
def Time.asCoord (t : Time) : Coord := ⟨t.vals, .timedelta, none⟩

/-- Interpolation modes accepted by `TimeSeries` (`_valid_interpolations`). -/
def validInterpolations : List String :=
  ["step", "linear", "nearest", "zero", "slinear", "quadratic", "cubic"]

/-- Insert a point into a grid sorted by coordinate. -/
def insGrid (q : Frac × Frac) : List (Frac × Frac) → List (Frac × Frac)
  | [] => [q]
  | r :: rs => if q.1 ≤ r.1 then q :: r :: rs else r :: insGrid q rs

/-- Sort a coordinate-value grid by coordinate (insertion sort). -/
def sortGrid : List (Frac × Frac) → List (Frac × Frac)
  | [] => []
  | p :: rest => insGrid p (sortGrid rest)

/-- Modelled from the spec: one-dimensional interpolation of a sorted grid at
a query point.  `step` returns the last value at or before the query point;
every other supported mode is modelled as piecewise-linear with clamping at
the grid ends (the spec delegates out-of-range behaviour to the library). -/
def interp1 (method : String) (grid : List (Frac × Frac)) (q : Frac) : Frac :=
  match grid with
  | [] => 0
  | [(_, v)] => v
  | (x1, v1) :: (x2, v2) :: rest =>
    if q < x2 then
      if method = "step" then v1
      else if q ≤ x1 then v1
      else v1 + (v2 - v1) * (q - x1) / (x2 - x1)
    else interp1 method ((x2, v2) :: rest) q

/-- Modelled from the spec: `weldx.util.xr_interp_like` along one named
dimension — the array is interpolated onto the new coordinate values with the
given method; a dimension the array does not have is left alone
(`broadcast_missing=False`). -/
def interpAlongDim (da : DataArray) (d : String) (target : Coord)
    (method : String) : DataArray :=
  match da.dims.findIdx? (fun x => x = d) with
  | none => da
  | some i =>
    let oldVals := ((da.coords.lookup d).map Coord.vals).getD []
    ⟨da.dims, da.shape.set i target.vals.length,
      fun ix =>
        let grid := sortGrid ((List.range oldVals.length).map
          (fun j => (oldVals.getD j 0, da.val (ix.set i j))))
        interp1 method grid (target.vals.getD (ix.getD i 0) 0),
      da.unit, setAssoc da.coords d target, da.attrs⟩

/-- Modelled from the spec: `weldx.util.xr_interp_like` — interpolate an
array onto the supplied per-dimension coordinates, one dimension at a time,
leaving the other dimensions untouched. -/
def interpLike (da : DataArray) (targets : List (String × Coord))
    (method : String) : DataArray :=
  targets.foldl (fun acc p => interpAlongDim acc p.1 p.2 method) da

/-- `weldx.core.TimeSeries`: a quantity over time, backed by a discrete
labeled array or by a `MathematicalExpression` with one free time variable. -/
structure TimeSeries where
  dataTS : Sum DataArray MathematicalExpression
  timeVarName : Option String
  tshape : Option (List Nat)
  tunits : Option UnitEx
  interpCounter : Nat
  referenceTime : Option Frac

/-- Constructor input of a `TimeSeries`: a quantity, a labeled array or a
mathematical expression; any other type is a `TypeError`. -/
inductive TSData where
  | q : PQuantity → TSData
  | da : DataArray → TSData
  | me : MathematicalExpression → TSData

/-- `TimeSeries.interpolation` (getter): the `interpolation` attribute of the
array, `None` for an expression. -/
def TimeSeries.interpolation (ts : TimeSeries) : Option String :=
  match ts.dataTS with
  | .inl da => da.attrs.lookup "interpolation"
  | .inr _ => none

/-- Length of the `time` coordinate of the internal array. -/
def timeLen (da : DataArray) : Nat :=
  (((da.coords.lookup "time").map Coord.vals).getD []).length

/-- `TimeSeries.time`: the internal array's time coordinate, or `None` for an
expression-backed or a single-instant series. -/
def TimeSeries.timeProp (ts : TimeSeries) : Option Time :=
  match ts.dataTS with
  | .inl da =>
    if timeLen da > 1 then
      some ⟨((da.coords.lookup "time").map Coord.vals).getD [], ts.referenceTime⟩
    else none
  | .inr _ => none

/-- Message of the error raised by the `interpolation` setter for an
unsupported mode. -/
def msgBadInterpolation (m : String) : String :=
  "A valid interpolation method must be specified if discrete values are used. "
    ++ m ++ " is not supported"

/-- `TimeSeries.interpolation` (setter): validates the mode, forces `step`
when at most one time point exists, and is a no-op for an expression-backed
series. -/
def TimeSeries.setInterpolation (ts : TimeSeries) (m : String) :
    Except PyErr TimeSeries :=
  match ts.dataTS with
  | .inr _ => .ok ts
  | .inl da =>
    if validInterpolations.contains m then
      let m' := if ts.timeProp = none ∧ m ≠ "step" then "step" else m
      .ok { ts with dataTS := .inl { da with attrs := setAssoc da.attrs "interpolation" m' } }
    else .error (.valueError (msgBadInterpolation m))

/-- Message of the structural-validation error for an array lacking the
required time dimension or coordinate type (`TimeSeries._check_data_array`). -/
def msgBadDataArray : String :=
  "The provided DataArray does not match the required pattern. It needs to have a dimension called time with coordinates of type timedelta64."

/-- Message of the error for array data that is not a pint quantity. -/
def msgDataNotQuantity : String :=
  "The data of the DataArray must be a pint.Quantity."

/-- `TimeSeries._check_data_array`: the array must have a `time` dimension
with timedelta coordinates and a pint-quantity payload. -/
def tsCheckDataArray (d : DataArray) : Except PyErr Unit := do
  if ¬ d.dims.contains "time" then throw (.keyError msgBadDataArray)
  match d.coords.lookup "time" with
  | none => throw (.keyError msgBadDataArray)
  | some c => if c.kind ≠ .timedelta then throw (.typeError msgBadDataArray)
  if d.unit.isNone then throw (.typeError msgDataNotQuantity)

/-- `data.transpose("time", ...)`: move the time dimension to the front. -/
def transposeTimeFirst (da : DataArray) : DataArray :=
  match da.dims.findIdx? (fun x => x = "time") with
  | none => da
  | some i =>
    let dims' := "time" :: da.dims.eraseIdx i
    ⟨dims', (da.shape.getD i 0) :: da.shape.eraseIdx i,
      fun ix => da.val (subIdx dims' ix da.dims),
      da.unit, da.coords, da.attrs⟩

/-- `TimeSeries._create_data_array`: wrap a quantity as an array, rename its
outer dimension to `time` and attach the timedelta coordinates (whose length
must match the outer dimension, as xarray enforces). -/
def tsCreateDataArray (p : PQuantity) (t : Time) : Except PyErr DataArray :=
  if p.qshape.headD 0 = t.vals.length then
    .ok ⟨"time" :: (defaultDims p.qshape.length).drop 1, p.qshape, p.qval,
      some p.unit, [("time", t.asCoord)], []⟩
  else .error (.valueError (msgConflictingSizes "time"))

/-- The array-building part of `TimeSeries._initialize_discrete`: validate a
supplied array, or wrap a quantity (a missing time coordinate means a single
instant at time zero; the reference time is taken from the time argument). -/
def tsPrepareDiscrete (data : Sum PQuantity DataArray) (time : Option TimeArg)
    (referenceTime : Option Frac) : Except PyErr TimeSeries :=
  match data with
  | .inr d => do
    tsCheckDataArray d
    pure (⟨.inl (transposeTimeFirst d), none, none, none, 0, referenceTime⟩ : TimeSeries)
  | .inl p => do
    let p' := if p.qshape = [] then ⟨[1], fun _ => p.qval [], p.unit⟩ else p
    let t ← match time with
      | none => pure (⟨[0], none⟩ : Time)
      | some targ => timeOf targ
    let d ← tsCreateDataArray p' t
    pure (⟨.inl d, none, none, none, 0, t.ref⟩ : TimeSeries)

/-- `TimeSeries._initialize_discrete`: build the internal array, defaulting
the interpolation to `step`, then run the interpolation setter. -/
def tsInitializeDiscrete (data : Sum PQuantity DataArray) (time : Option TimeArg)
    (interpolation : Option String) (referenceTime : Option Frac) :
    Except PyErr TimeSeries := do
  let ts ← tsPrepareDiscrete data time referenceTime
  ts.setInterpolation (interpolation.getD "step")

/-- Message of the structural-validation error for an expression that does
not have exactly one free variable (`TimeSeries._init_expression`). -/
def msgOneFreeVariable : String :=
  "The mathematical expression must have exactly 1 free variable that represents time."

/-- Message of the unit error raised when the expression cannot be evaluated
at one second. -/
def msgCheckParamUnits : String :=
  "Expression can not be evaluated with weldx.Quantity(1, seconds). Ensure that every parameter posses the correct unit."

/-- Message of the aliasing error raised when a probe evaluation with a
time-delta array fails. -/
def msgAliasing (s : String) : String :=
  "The expression can not be evaluated with arrays of time deltas. Ensure that all parameters that are multiplied with the time variable have an outer dimension of size 1. This dimension is broadcasted during multiplication. The original error message was: " ++ s

/-- Message of the advisory notice emitted when an already-interpolated
series is interpolated again. -/
def msgAlreadyInterpolated : String :=
  "The data of the time series has already been interpolated."

/-- `TimeSeries._interp_time_expression`: convert the requested times to a
quantity in the requested unit, evaluate the expression on the resulting
time array and attach the time coordinates to the result (which therefore
must have a matching time dimension). -/
def tsInterpTimeExpression (ts : TimeSeries) (me : MathematicalExpression)
    (ti : Time) (tu : UnitEx) : Except PyErr DataArray := do
  let tq := ti.asQuantity tu
  let timeXr : DataArray := ⟨["time"], [ti.vals.length], tq.qval, some tu, [], []⟩
  let data ← me.evaluate [(ts.timeVarName.getD "", .inr timeXr)]
  if data.dims.contains "time" then
    if sizeOfDim data "time" = some ti.vals.length then
      return { data with coords := setAssoc data.coords "time" ti.asCoord }
    else throw (.valueError (msgConflictingSizes "time"))
  else throw (.valueError "cannot add coordinates with new dimensions")

/-- `TimeSeries.interp_time`: emit the precision-loss notice when the series
was already resampled, then interpolate (discrete) or evaluate (expression)
at the requested times and wrap the result in a brand-new `TimeSeries` whose
resampling counter is the predecessor's plus one.  The notice list is
returned alongside the result. -/
def TimeSeries.interp_time (ts : TimeSeries) (targ : TimeArg) (tu : UnitEx) :
    List String × Except PyErr TimeSeries :=
  let warnings := if ts.interpCounter > 0 then [msgAlreadyInterpolated] else []
  let body : Except PyErr TimeSeries := do
    let time ← timeOf targ
    let ti := time.withRef ts.referenceTime
    match ts.dataTS with
    | .inl da => do
      let m ← match da.attrs.lookup "interpolation" with
        | some m => pure m
        | none => throw (.keyError "interpolation")
      let dax := interpLike da [("time", ti.asCoord)] m
      let ts2 ← tsInitializeDiscrete (.inl ⟨dax.shape, dax.val, unitOf dax⟩)
        (some (.inl time)) (some m) none
      return { ts2 with interpCounter := ts.interpCounter + 1 }
    | .inr me => do
      let dax ← tsInterpTimeExpression ts me ti tu
      let ts2 ← tsInitializeDiscrete (.inr dax) none none none
      return { ts2 with interpCounter := ts.interpCounter + 1 }
  (warnings, body)

/-- `TimeSeries._init_expression`: require exactly one free variable, probe
the expression at one second to cache the output unit and shape, then run
the double anti-aliasing probe through `interp_time` with a 2-element and a
3-element time-delta array; if either probe fails, construction fails with
the aliasing error wrapping the original message. -/
def tsInitExpression (me : MathematicalExpression) (referenceTime : Option Frac) :
    Except PyErr TimeSeries :=
  if me.num_variables ≠ 1 then .error (.exception msgOneFreeVariable)
  else
    let tv := me.get_variable_names.headD ""
    match me.evaluate [(tv, .inl (scalarQ 1 uSecond))] with
    | .error .dimensionality => .error (.exception msgCheckParamUnits)
    | .error e => .error e
    | .ok r =>
      let ts0 : TimeSeries :=
        ⟨.inr me, some tv, some (if r.shape ≠ [] then r.shape else [1]),
          some (unitOf r), 0, referenceTime⟩
      match (ts0.interp_time (.inr (listQ [1, 2] uSecond)) uSecond).2 with
      | .error e => .error (.exception (msgAliasing (pyMsg e)))
      | .ok _ =>
        match (ts0.interp_time (.inr (listQ [1, 2, 3] uSecond)) uSecond).2 with
        | .error e => .error (.exception (msgAliasing (pyMsg e)))
        | .ok _ => .ok ts0

/-- `TimeSeries.__init__`: dispatch on the payload type (the unsupported-type
`TypeError` branch is outside the modelled input type). -/
def TimeSeries.construct (data : TSData) (time : Option TimeArg)
    (interpolation : Option String) (referenceTime : Option Frac) :
    Except PyErr TimeSeries :=
  match data with
  | .q p => tsInitializeDiscrete (.inl p) time interpolation referenceTime
  | .da d => tsInitializeDiscrete (.inr d) time interpolation referenceTime
  | .me m => tsInitExpression m referenceTime

/-- `TimeSeries.__eq__`: two discrete series compare their internal arrays
with xarray `identical` (the other side's payload must be a quantity); two
expression-backed series compare their expressions; mixed kinds are unequal.
The resampling counter and the reference time do not participate. -/
def eqTS (a b : TimeSeries) : Prop :=
  match a.dataTS, b.dataTS with
  | .inl da, .inl db => db.unit.isSome = true ∧ identicalDA da db
  | .inl _, .inr _ => False
  | .inr m1, .inr m2 => meEq m1 m2
  | .inr _, .inl _ => False

instance (a b : TimeSeries) : Decidable (eqTS a b) := by
  unfold eqTS
  exact match a.dataTS, b.dataTS with
    | .inl da, .inl db =>
      inferInstanceAs (Decidable (db.unit.isSome = true ∧ identicalDA da db))
    | .inl _, .inr _ => inferInstanceAs (Decidable False)
    | .inr m1, .inr m2 => inferInstanceAs (Decidable (meEq m1 m2))
    | .inr _, .inl _ => inferInstanceAs (Decidable False)

/-- `TimeSeries.units`: the payload unit for a discrete series, the cached
probed unit for an expression-backed one. -/
def TimeSeries.units (ts : TimeSeries) : Option UnitEx :=
  match ts.dataTS with
  | .inl da => da.unit
  | .inr _ => ts.tunits

/-- `weldx.core.GenericSeries` (base class; the per-subclass constraint hooks
are all `None` on the base class, so `_check_constraints_discrete` and
`_check_constraints_expression` return immediately and are not modelled). -/
structure GenericSeries where
  dataG : Sum DataArray MathematicalExpression
  variableUnits : Option (List (String × UnitEx))
  symbolDims : Option (List (String × List String))
  gshape : Option (List Nat)
  gunits : Option UnitEx
  interpolationG : String

/-- Constructor input of a `GenericSeries`: a quantity, a labeled array, an
expression string (already parsed) or a `MathematicalExpression`. -/
inductive GSData where
  | q : PQuantity → GSData
  | da : DataArray → GSData
  | expr : SymExpr → GSData
  | me : MathematicalExpression → GSData

/-- The `dims` constructor argument: absent, an ordered dimension-name list
(discrete data) or a variable-to-dimension-names map (expression data). -/
inductive GSDimsArg where
  | noneD : GSDimsArg
  | listD : List String → GSDimsArg
  | mapD : List (String × List String) → GSDimsArg

/-- Message of the error raised for an expression without variables. -/
def msgNoVariables : String := "The passed expression has no variables."

/-- Message of the error raised for a `units` key that is not an expression
variable. -/
def msgNotAVariable (k : String) : String :=
  k ++ " is not a variable of the expression"

/-- Message of the unit-compatibility error raised by the scalar probe
evaluation. -/
def msgUnitIncompat (s : String) : String :=
  "Expression can not be evaluated due to a unit dimensionality error. Ensure that the expressions parameters and the expected variable units are compatible. The original exception was: " ++ s

/-- Message of the aliasing error raised by the double array-probe
evaluation. -/
def msgMismatchingLengths (s : String) : String :=
  "During the evaluation of the expression mismatching array lengths were detected. Some possible causes are: expression parameters that have already assigned coordinates to a dimension that is also used as a variable, 2 free dimensions with identical names, 2 expression parameters that use the same dimension with different number of values. The original exception was: " ++ s

/-- Message of the Python `UnboundLocalError` hit when the scalar probe
failed with a `ValueError` but the array probes succeed. -/
def msgUnboundLocal : String :=
  "local variable expr_units referenced before assignment"

/-- Message of the error raised for a parameter array that is not
quantity-backed. -/
def msgNotQuantityParam (k : String) : String :=
  "Value for parameter " ++ k ++ " is not a quantity."

/-- Message of the error raised for an interpolation key that is not a
dimension of the discrete data. -/
def msgNotValidDimension (k : String) : String :=
  k ++ " is not a valid dimension."

/-- `GenericSeries._update_expression_params`: coerce parameter values;
an array value must be quantity-backed. -/
def gsUpdateExpressionParams (ps : List (String × MEParamIn)) :
    Except PyErr (List (String × MEParamIn)) :=
  ps.mapM (fun p => match p.2 with
    | .tup v ds => pure (p.1, MEParamIn.tup v ds)
    | .da d =>
      if d.unit.isSome then pure (p.1, MEParamIn.da d)
      else throw (.valueError (msgNotQuantityParam p.1))
    | .q v => pure (p.1, MEParamIn.q v))

/-- A one-dimensional quantity holding `0, 1, ..., n-1` in the given unit
(`Q_(range(n), unit)`). -/
def rangeQ (n : Nat) (u : UnitEx) : PQuantity :=
  listQ ((List.range n).map (fun i => qOfInt i)) u

/-- One array-probe evaluation of `_eval_expr`: variable `i` (in `units`
order) is bound to an array of length `i + 2 + offset` laid out on its
declared dimensions. -/
def gsProbeOnce (me : MathematicalExpression) (dims : List (String × List String))
    (units : List (String × UnitEx)) (offset : Nat) : Except PyErr DataArray := do
  let ps ← units.enum.mapM (fun p => do
    let d ← mkDAofQ (rangeQ (p.1 + 2 + offset) p.2.2) ((dims.lookup p.2.1).getD [p.2.1])
    pure (p.2.1, (Sum.inr d : MEParamVal)))
  me.evaluate ps

/-- One pass of the double array probe: a `ValueError` becomes the
mismatching-array-lengths error, other errors propagate. -/
def gsProbePass (me : MathematicalExpression) (dims : List (String × List String))
    (units : List (String × UnitEx)) (offset : Nat) : Except PyErr Unit :=
  match gsProbeOnce me dims units offset with
  | .error (.valueError m) => .error (.valueError (msgMismatchingLengths m))
  | .error e => .error e
  | .ok _ => .ok ()

/-- The double array-probe loop of `_eval_expr`: two passes with different
per-variable array lengths.  `cached` is the scalar-probe output unit,
unbound when the scalar probe failed with a `ValueError` (replicating the
source's uninitialized local in that corner). -/
def gsEvalArrays (me : MathematicalExpression) (dims : List (String × List String))
    (units : List (String × UnitEx)) (cached : Option UnitEx) :
    Except PyErr UnitEx := do
  gsProbePass me dims units 0
  gsProbePass me dims units 1
  match cached with
  | some u => return u
  | none => throw (.exception msgUnboundLocal)

/-- `GenericSeries._eval_expr`: probe-evaluate with unit-only scalars to
obtain the reduced output unit (a dimensionality failure becomes a
unit-compatibility error), then run the double array probe. -/
def gsEvalExpr (me : MathematicalExpression) (dims : List (String × List String))
    (units : List (String × UnitEx)) : Except PyErr UnitEx :=
  match me.evaluate (units.map (fun p => (p.1, (Sum.inl (scalarQ 1 p.2) : MEParamVal)))) with
  | .error .dimensionality => .error (.valueError (msgUnitIncompat (pyMsg .dimensionality)))
  | .error (.valueError _) => gsEvalArrays me dims units none
  | .error e => .error e
  | .ok res => gsEvalArrays me dims units (some (uReduce (unitOf res)))

/-- The parameter coercion of `_init_expression`: an absent parameters
argument stays empty, otherwise `_update_expression_params` runs. -/
def gsCoerceParams (parameters : Option (List (String × MEParamIn))) :
    Except PyErr (List (String × MEParamIn)) :=
  match parameters with
  | none => .ok []
  | some p => gsUpdateExpressionParams p

/-- `GenericSeries._init_expression`: coerce parameters, build the
expression, require at least one variable, validate the `units` keys,
default the dimension and unit of every remaining variable to its own name
and to dimensionless, probe-evaluate, and store the maps. -/
def gsInitExpression (e : SymExpr) (dimsM : Option (List (String × List String)))
    (parameters : Option (List (String × MEParamIn)))
    (units : Option (List (String × UnitEx))) : Except PyErr GenericSeries := do
  let ps ← gsCoerceParams parameters
  let me ← MathematicalExpression.set_parameters ⟨e, []⟩ ps
  if me.num_variables = 0 then throw (.valueError msgNoVariables)
  else do
    let units0 ← (units.getD []).mapM (fun p =>
      if me.get_variable_names.contains p.1 then pure p
      else throw (.keyError (msgNotAVariable p.1)))
    let dims1 := me.get_variable_names.foldl
      (fun acc v => if acc.any (fun p => p.1 = v) then acc else acc ++ [(v, [v])])
      (dimsM.getD [])
    let units1 := me.get_variable_names.foldl
      (fun acc v => if acc.any (fun p => p.1 = v) then acc else acc ++ [(v, uOne)])
      units0
    let eunits ← gsEvalExpr me dims1 units1
    return ⟨.inr me, some units1, some dims1, none, some eunits, "linear"⟩

/-- `GenericSeries._init_discrete`: dequantify the supplied coordinates and
build the labeled array (xarray checks the dimension count and coordinate
lengths); an already-built array is stored as is. -/
def gsInitDiscrete (data : Sum PQuantity DataArray) (dimsL : List String)
    (coords : Option (List (String × PQuantity))) : Except PyErr GenericSeries := do
  let da ← match data with
    | .inr d => pure d
    | .inl p => do
      let coordsC := (coords.getD []).map
        (fun p => (p.1, (⟨valuesListQ p.2, .plain, some p.2.unit⟩ : Coord)))
      if dimsL.length ≠ p.qshape.length then
        throw (.valueError msgDimsMismatch)
      for c in coordsC do
        if (dimsL.zip p.qshape).lookup c.1 ≠ some c.2.vals.length then
          throw (.valueError (msgConflictingSizes c.1))
      pure (⟨dimsL, p.qshape, p.qval, some p.unit, coordsC, []⟩ : DataArray)
  return ⟨.inl da, none, none, none, none, "linear"⟩

/-- `GenericSeries.__init__`: dispatch on the payload type; a
`MathematicalExpression` input re-parses its formula and takes over its own
parameters, discarding the `parameters` argument. -/
def GenericSeries.construct (data : GSData) (dimsA : GSDimsArg)
    (coords : Option (List (String × PQuantity)))
    (units : Option (List (String × UnitEx)))
    (parameters : Option (List (String × MEParamIn))) :
    Except PyErr GenericSeries :=
  match data with
  | .q p => gsInitDiscrete (.inl p)
      (match dimsA with | .listD l => l | _ => []) coords
  | .da d => gsInitDiscrete (.inr d)
      (match dimsA with | .listD l => l | _ => []) coords
  | .expr e => gsInitExpression e
      (match dimsA with | .mapD m => some m | _ => none) parameters units
  | .me m => gsInitExpression m.expression
      (match dimsA with | .mapD m' => some m' | _ => none)
      (some (m.parameters.map (fun p =>
        (p.1, match p.2 with
          | .inl q => MEParamIn.q q
          | .inr d => MEParamIn.da d))))
      units

/-- `GenericSeries._get_expression_dims`: the union of every live variable's
dimension names and the dimensions of every nonempty array-valued parameter,
without duplicates. -/
def getExpressionDims (me : MathematicalExpression)
    (sdims : List (String × List String)) : List String :=
  ((sdims.flatMap (fun p => p.2)) ++
    (me.parameters.flatMap (fun p =>
      let d := wrapArg p.2
      if 0 < d.shape.foldl (· * ·) 1 then d.dims else []))).foldl
    (fun acc d => if acc.contains d then acc else acc ++ [d]) []

/-- `GenericSeries.dims`. -/
def GenericSeries.dims (gs : GenericSeries) : List String :=
  match gs.dataG with
  | .inr me => getExpressionDims me (gs.symbolDims.getD [])
  | .inl da => da.dims

/-- `GenericSeries.units`: the cached probed unit, or the payload unit of the
discrete data. -/
def GenericSeries.units (gs : GenericSeries) : Option UnitEx :=
  gs.gunits.orElse (fun _ =>
    match gs.dataG with
    | .inl da => da.unit
    | .inr _ => none)

/-- The remaining free-variable count of an expression-backed series. -/
def GenericSeries.numVariables (gs : GenericSeries) : Nat :=
  match gs.dataG with
  | .inr me => me.num_variables
  | .inl _ => 0

/-- The per-call coercion `GenericSeries.__call__` applies to each keyword
argument: coerce to a quantity, expand scalars to length one, and build
either an expression input array (with the variable's dimensions and
coordinates from the magnitudes) or, for discrete data, the coordinate array
converted to the reference unit of the matching coordinate and dequantified. -/
def gsBuildItem (gs : GenericSeries) (kv : String × PQuantity) :
    Except PyErr (String × Sum DataArray Coord) :=
  let v := if kv.2.qshape = [] then
      (⟨[1], fun _ => kv.2.qval [], kv.2.unit⟩ : PQuantity)
    else kv.2
  match gs.dataG with
  | .inr _ => do
    let ds ← match (gs.symbolDims.getD []).lookup kv.1 with
      | some ds => pure ds
      | none => throw (.keyError kv.1)
    let d ← mkDAofQ v ds
    pure (kv.1, (Sum.inl
      { d with coords := [(ds.headD "", ⟨valuesListQ v, .plain, none⟩)] } :
        Sum DataArray Coord))
  | .inl da0 => do
    let c ← match da0.coords.lookup kv.1 with
      | some c => pure c
      | none => throw (.keyError kv.1)
    let ref ← match c.unitAttr with
      | some u => pure u
      | none => throw (.keyError "units")
    let f ← match uConvert v.unit ref with
      | some f => pure f
      | none => throw (.dimensionality : PyErr)
    pure (kv.1, (Sum.inr
      (⟨(valuesListQ v).map (fun q => q * f), .plain, some ref⟩ : Coord) :
        Sum DataArray Coord))

def gsBuildInput (gs : GenericSeries) :
    List (String × PQuantity) →
    Except PyErr (List (String × Sum DataArray Coord))
  | [] => .ok []
  | kv :: rest => do
    let item ← gsBuildItem gs kv
    let out ← gsBuildInput gs rest
    return item :: out

/-- The partial-binding branch of `GenericSeries.__call__`: each supplied
variable is bound onto the expression as an array parameter tied to its
dimension names, and removed from the live dimension and unit maps. -/
def gsBindLoop (orig : List (String × List String)) :
    MathematicalExpression → List (String × List String) →
    List (String × UnitEx) → List (String × PQuantity) →
    Except PyErr (MathematicalExpression × List (String × List String) × List (String × UnitEx))
  | cur, sdims, vunits, [] => .ok (cur, sdims, vunits)
  | cur, sdims, vunits, p :: rest => do
    let ds ← match orig.lookup p.1 with
      | some ds => pure ds
      | none => throw (.keyError p.1)
    let cur' ← cur.set_parameters [(p.1, .tup p.2 ds)]
    if ¬ sdims.any (fun q => q.1 = p.1) then throw (.keyError p.1)
    else if ¬ vunits.any (fun q => q.1 = p.1) then throw (.keyError p.1)
    else gsBindLoop orig cur' (removeAssoc sdims p.1) (removeAssoc vunits p.1) rest

def gsBindVars (gs : GenericSeries) (kwargs : List (String × PQuantity)) :
    Except PyErr GenericSeries := do
  match gs.dataG with
  | .inl _ => throw (.exception "partial binding requires an expression")
  | .inr me => do
    let r ← gsBindLoop (gs.symbolDims.getD []) me (gs.symbolDims.getD [])
      (gs.variableUnits.getD []) kwargs
    return { gs with
      dataG := .inr r.1
      symbolDims := some r.2.1
      variableUnits := some r.2.2 }

/-- The check of `GenericSeries.__call__` on discrete data that every
supplied key is one of the data's dimension names. -/
def gsCheckDims (dims : List String) :
    List (String × Sum DataArray Coord) → Except PyErr Unit
  | [] => .ok ()
  | p :: rest =>
    if ¬ dims.contains p.1 then .error (.keyError (msgNotValidDimension p.1))
    else gsCheckDims dims rest

/-- `GenericSeries.__call__`: build the coerced inputs, then either fully
evaluate (all variables bound) into a new discrete series, partially bind
(currying), or — for discrete data — check every key is a dimension name and
interpolate onto the supplied coordinates.  The interpolation method of
`weldx.util.xr_interp_like` is modelled from the spec as linear. -/
def GenericSeries.callGS (gs : GenericSeries) (kwargs : List (String × PQuantity)) :
    Except PyErr GenericSeries := do
  let input ← gsBuildInput gs kwargs
  match gs.dataG with
  | .inr me =>
    if kwargs.length = me.num_variables then do
      let data ← me.evaluate (input.filterMap (fun p =>
        match p.2 with
        | .inl d => some (p.1, (Sum.inr d : MEParamVal))
        | .inr _ => none))
      gsInitDiscrete (.inr data) [] none
    else gsBindVars gs kwargs
  | .inl da => do
    gsCheckDims da.dims input
    let targets := input.filterMap (fun p =>
      match p.2 with
      | .inr c => some (p.1, c)
      | .inl _ => none)
    gsInitDiscrete (.inr (interpLike da targets "linear")) [] none

/-! ## Helper functions and lemmas -/

/-- A default (empty) array, used as a fallback when extracting results. -/
def defaultDA : DataArray := ⟨[], [], fun _ => 0, none, [], []⟩

/-- A default `TimeSeries`, used as a fallback when extracting results. -/
def defaultTS : TimeSeries := ⟨.inl defaultDA, none, none, none, 0, none⟩

/-- A default `GenericSeries`, used as a fallback when extracting results. -/
def defaultGS : GenericSeries := ⟨.inl defaultDA, none, none, none, none, "linear"⟩

/-- Extract the success value of an `Except`, with a fallback. -/
def exGetD {α : Type} (e : Except PyErr α) (d : α) : α :=
  match e with
  | .ok a => a
  | .error _ => d

/-- The error of an `Except`, if any. -/
def errOf {α : Type} (e : Except PyErr α) : Option PyErr :=
  match e with
  | .ok _ => none
  | .error e => some e

/-- Whether an `Except` succeeded. -/
def isOkE {α : Type} (e : Except PyErr α) : Bool :=
  match e with
  | .ok _ => true
  | .error _ => false

/-- The degenerate single-instant series built from a scalar quantity with a
`linear` interpolation request. -/
def C6ts : TimeSeries :=
  exGetD (TimeSeries.construct (.q (scalarQ 5 uMeter)) none (some "linear") none)
    defaultTS

/-- The internal array of `C6ts`. -/
def C6da : DataArray :=
  match C6ts.dataTS with
  | .inl d => d
  | .inr _ => defaultDA

/-- The result of writing `quadratic` onto `C6ts`. -/
def C6ts2 : TimeSeries := exGetD (C6ts.setInterpolation "quadratic") defaultTS

/-- The partially-built expression-backed `TimeSeries` that
`_init_expression` probes with `interp_time`: the expression is stored, the
time variable is the single free variable, and the output unit and shape
come from the scalar probe evaluation at one second. -/
def tsProbeStage (me : MathematicalExpression) (r0 : Option Frac)
    (res : DataArray) : TimeSeries :=
  ⟨.inr me, some (me.get_variable_names.headD ""),
    some (if res.shape ≠ [] then res.shape else [1]), some (unitOf res), 0, r0⟩

/-- The aliasing-unsafe expression `a * t` whose parameter `a` is a 4-element
array laid out on the `time` dimension. -/
def C2me : MathematicalExpression :=
  ⟨.mul (.var "a") (.var "t"),
    [("a", .inr ⟨["time"], [4], fun ix => qOfInt (ix.getD 0 0),
      some uMeterPerSecond, [], []⟩)]⟩

/-- The scalar probe result for `C2me`. -/
def C2res : DataArray :=
  exGetD (C2me.evaluate
    [(C2me.get_variable_names.headD "", .inl (scalarQ 1 uSecond))]) defaultDA

/-- The coerced input array `__call__` builds for one keyword argument of an
expression-backed series. -/
def exprInputDA (sdims : List (String × List String))
    (kv : String × PQuantity) : DataArray :=
  ⟨(sdims.lookup kv.1).getD [], kv.2.qshape, kv.2.qval, some kv.2.unit,
    [(((sdims.lookup kv.1).getD []).headD "",
      ⟨valuesListQ kv.2, .plain, none⟩)], []⟩

/-- The expression-backed series over `x * y` with default dimensions and
units. -/
def C1gs : GenericSeries :=
  exGetD (GenericSeries.construct (.expr (.mul (.var "x") (.var "y")))
    .noneD none none none) defaultGS

/-- The series obtained from `C1gs` by binding `x` to a 2-element array. -/
def C1res : GenericSeries :=
  exGetD (C1gs.callGS [("x", listQ [1, 2] uOne)]) defaultGS

/-- The expression stored in `C1gs`. -/
def C1me : MathematicalExpression :=
  match C1gs.dataG with
  | .inr m => m
  | .inl _ => ⟨.const 0, []⟩

/-- The expression-backed series over `a * t` with `a` bound to two meters
per second and `t` declared in seconds. -/
def C3gs : GenericSeries :=
  exGetD (GenericSeries.construct (.expr (.mul (.var "a") (.var "t"))) .noneD
    none (some [("t", uSecond)]) (some [("a", .q (scalarQ 2 uMeterPerSecond))]))
    defaultGS

/-- The result of evaluating `C3gs` at one hour. -/
def C3resHour : GenericSeries :=
  exGetD (C3gs.callGS [("t", listQ [1] uHour)]) defaultGS

/-- The result of evaluating `C3gs` at three seconds. -/
def C3resSec : GenericSeries :=
  exGetD (C3gs.callGS [("t", listQ [3] uSecond)]) defaultGS

/-- A discrete two-point series in meters with linear interpolation, used to
witness C4. -/
def C4da : DataArray :=
  ⟨["time"], [2], fun ix => qOfInt (ix.getD 0 0), some uMeter,
    [("time", ⟨[1, 2], CoordKind.timedelta, none⟩)], [("interpolation", "linear")]⟩

/-- The witness series wrapping `C4da`. -/
def C4ts : TimeSeries := ⟨.inl C4da, none, none, none, 0, none⟩

/-- The result of interpolating `C4ts` onto the single time point `3/2`. -/
def C4t1 : TimeSeries :=
  exGetD ((C4ts.interp_time (.inl ⟨[⟨3, 2⟩], none⟩) uSecond).2) defaultTS

/-- The per-call coercion applied to each keyword value: scalars are expanded
to one-element arrays (`np.expand_dims(v, 0)`). -/
def gsExpand (q : PQuantity) : PQuantity :=
  if q.qshape = [] then ⟨[1], fun _ => q.qval [], q.unit⟩ else q

/-- The converted, dequantified coordinate array `__call__` builds for one
key on discrete data: the values converted to the reference unit of the
matching coordinate, tagged with that unit. -/
def gsTargetCoord (q : PQuantity) (ref : UnitEx) (f : Frac) : Coord :=
  ⟨(valuesListQ (gsExpand q)).map (fun x => x * f), .plain, some ref⟩

/-- A discrete series over dimension `x` with an extra non-dimension
coordinate `y`, used for C9. -/
def C9da : DataArray :=
  ⟨["x"], [2], fun ix => qOfInt (ix.getD 0 0), some uMeter,
    [("x", ⟨[0, 1], CoordKind.plain, some uSecond⟩),
     ("y", ⟨[5], CoordKind.plain, some uSecond⟩)], []⟩

/-- The discrete series wrapping `C9da`. -/
def C9gs : GenericSeries := ⟨.inl C9da, none, none, none, none, "linear"⟩

/-- The quantity supplied to `C9gs` in the C9 witness. -/
def C9q : PQuantity := listQ [0] uSecond

/-- The coordinate array built for the C9 witness call. -/
def C9c : Coord := gsTargetCoord C9q uSecond ⟨1, 1⟩

/-- The interpolated array of the C9 witness call. -/
def C9res : DataArray := interpLike C9da [("x", C9c)] "linear"

theorem exBindOk {α β : Type} {e : Except PyErr α} {f : α → Except PyErr β}
    {b : β} (h : (e >>= f) = .ok b) : ∃ a, e = .ok a ∧ f a = .ok b := by
  cases e with
  | ok a => exact ⟨a, rfl, h⟩
  | error err => simp [Bind.bind, Except.bind] at h

theorem lookup_map_overwrite {α : Type} (l : List (String × α)) (k : String)
    (v : α) (h : l.any (fun p => p.1 = k) = true) :
    (l.map (fun p => if p.1 = k then (k, v) else p)).lookup k = some v := by
  induction l with
  | nil => simp at h
  | cons a rest ih =>
    simp only [List.map_cons]
    by_cases ha : a.1 = k
    · rw [if_pos ha]
      simp [List.lookup]
    · rw [if_neg ha]
      simp only [List.any_cons, decide_eq_true_eq, Bool.or_eq_true] at h
      rcases h with h | h
      · exact absurd h ha
      · have hne : (k == a.1) = false := by
          simp only [beq_eq_false_iff_ne, ne_eq]
          exact fun hk => ha hk.symm
        simp [List.lookup, hne, ih h]

theorem lookup_append_right {α : Type} (l l2 : List (String × α)) (k : String)
    (h : l.any (fun p => p.1 = k) = false) :
    (l ++ l2).lookup k = l2.lookup k := by
  induction l with
  | nil => simp
  | cons a rest ih =>
    simp only [List.any_cons, Bool.or_eq_false_iff, decide_eq_false_iff_not] at h
    have hne : (k == a.1) = false := by
      simp [beq_iff_eq]; exact fun hk => h.1 hk.symm
    simp only [List.cons_append, List.lookup, hne]
    exact ih h.2

theorem lookup_setAssoc_self {α : Type} (l : List (String × α)) (k : String)
    (v : α) : (setAssoc l k v).lookup k = some v := by
  unfold setAssoc
  by_cases h : l.any (fun p => p.1 = k) = true
  · simp only [h, if_true]
    exact lookup_map_overwrite l k v h
  · simp only [Bool.not_eq_true] at h
    simp only [h, Bool.false_eq_true, if_false]
    rw [lookup_append_right l _ k h]
    simp [List.lookup]

theorem lookup_map_setkey_ne {α : Type} (l : List (String × α)) (k k' : String)
    (v : α) (h : k' ≠ k) :
    (l.map (fun p => if p.1 = k then (k, v) else p)).lookup k' = l.lookup k' := by
  induction l with
  | nil => simp
  | cons a rest ih =>
    simp only [List.map_cons]
    by_cases ha : a.1 = k
    · rw [if_pos ha]
      have h1 : (k' == k) = false := by
        simp only [beq_eq_false_iff_ne, ne_eq]; exact h
      have h2 : (k' == a.1) = false := by
        simp only [beq_eq_false_iff_ne, ne_eq]
        intro hk'
        exact h (ha ▸ hk')
      simp [List.lookup, h1, h2, ih]
    · rw [if_neg ha]
      simp only [List.lookup]
      cases hk : (k' == a.1) <;> simp [ih]

theorem lookup_append_single_ne {α : Type} (l : List (String × α))
    (k k' : String) (v : α) (h : k' ≠ k) :
    (l ++ [(k, v)]).lookup k' = l.lookup k' := by
  induction l with
  | nil => simp [List.lookup, beq_eq_false_iff_ne.mpr h]
  | cons a rest ih =>
    simp only [List.cons_append, List.lookup]
    cases hk : (k' == a.1) <;> simp [ih]

theorem lookup_setAssoc_ne {α : Type} (l : List (String × α)) (k k' : String)
    (v : α) (h : k' ≠ k) : (setAssoc l k v).lookup k' = l.lookup k' := by
  unfold setAssoc
  by_cases hl : l.any (fun p => p.1 = k) = true
  · simp only [hl, if_true]
    exact lookup_map_setkey_ne l k k' v h
  · simp only [Bool.not_eq_true] at hl
    simp only [hl, Bool.false_eq_true, if_false]
    exact lookup_append_single_ne l k k' v h

/-! ## Claim theorems -/

/-- C7: constructing a `TimeSeries` from an expression whose free-variable
count (free symbols minus bound parameters) is not exactly one fails with the
structural-validation error stating that the expression must have exactly one
free variable representing time. -/
theorem C7_one_free_variable_required (me : MathematicalExpression)
    (t : Option TimeArg) (i : Option String) (r : Option Frac)
    (h : me.num_variables ≠ 1) :
    TimeSeries.construct (.me me) t i r = .error (.exception msgOneFreeVariable) := by
  simp [TimeSeries.construct, tsInitExpression, h]

/-- Witness for C7: the expression `x + y` has two free variables and is
rejected with the one-free-variable error. -/
theorem C7_one_free_variable_required_witness :
    (⟨.add (.var "x") (.var "y"), []⟩ : MathematicalExpression).num_variables ≠ 1 ∧
    TimeSeries.construct (.me ⟨.add (.var "x") (.var "y"), []⟩) none none none =
      .error (.exception msgOneFreeVariable) :=
  ⟨by decide, C7_one_free_variable_required _ none none none (by decide)⟩

/-- C10: `TimeSeries.__eq__` reads only the internal data array, so two
discrete series with identical arrays (same values, time coordinates, units
and interpolation attribute) are equal even when their resampling counters
and reference timestamps differ. -/
theorem C10_eq_ignores_counter_and_reference (dims : List String)
    (shape : List Nat) (val : List Nat → Frac) (u : UnitEx)
    (coords : List (String × Coord)) (attrs : List (String × String))
    (tv1 tv2 : Option String) (sh1 sh2 : Option (List Nat))
    (un1 un2 : Option UnitEx) (c1 c2 : Nat) (r1 r2 : Option Frac) :
    eqTS ⟨.inl ⟨dims, shape, val, some u, coords, attrs⟩, tv1, sh1, un1, c1, r1⟩
      ⟨.inl ⟨dims, shape, val, some u, coords, attrs⟩, tv2, sh2, un2, c2, r2⟩ := by
  exact ⟨rfl, rfl, rfl, rfl, rfl, rfl, rfl⟩

/-- C5: `interp_time` is pure in this embedding (the original series is never
mutated); whenever it returns a new series, that series' resampling counter
is the predecessor's counter plus one, and the non-fatal precision-loss
notice is emitted if and only if the predecessor's counter was already
greater than zero. -/
theorem C5_interp_time_counter_and_notice (ts : TimeSeries) (targ : TimeArg)
    (tu : UnitEx) :
    (∀ ts2, (ts.interp_time targ tu).2 = .ok ts2 →
      ts2.interpCounter = ts.interpCounter + 1) ∧
    ((ts.interp_time targ tu).1 ≠ [] ↔ 0 < ts.interpCounter) := by
  constructor
  · intro ts2 h
    simp only [TimeSeries.interp_time] at h
    obtain ⟨time, _, h⟩ := exBindOk h
    split at h
    · split at h
      · obtain ⟨ts', _, h⟩ := exBindOk h
        obtain ⟨ts'', _, h⟩ := exBindOk h
        simp only [pure, Except.pure, Except.ok.injEq] at h
        rw [← h]
      · simp [Bind.bind, Except.bind, throw, throwThe, MonadExceptOf.throw] at h
    · obtain ⟨dax, _, h⟩ := exBindOk h
      obtain ⟨ts', _, h⟩ := exBindOk h
      simp only [pure, Except.pure, Except.ok.injEq] at h
      rw [← h]
  · simp only [TimeSeries.interp_time]
    by_cases hc : 0 < ts.interpCounter
    · simp [hc]
    · simp [hc]

/-- Witness for C5: a concrete discrete series with counter zero emits no
notice and yields counter one. -/
theorem C5_interp_time_counter_and_notice_witness :
    (∀ ts2,
      ((exGetD (TimeSeries.construct (.q (listQ [0, 1] uMeter))
          (some (.inl ⟨[0, 1], none⟩)) (some "linear") none) defaultTS).interp_time
        (.inl ⟨[0], none⟩) uSecond).2 = .ok ts2 →
      ts2.interpCounter =
        (exGetD (TimeSeries.construct (.q (listQ [0, 1] uMeter))
          (some (.inl ⟨[0, 1], none⟩)) (some "linear") none) defaultTS).interpCounter + 1) ∧
    (((exGetD (TimeSeries.construct (.q (listQ [0, 1] uMeter))
          (some (.inl ⟨[0, 1], none⟩)) (some "linear") none) defaultTS).interp_time
        (.inl ⟨[0], none⟩) uSecond).1 ≠ [] ↔
      0 < (exGetD (TimeSeries.construct (.q (listQ [0, 1] uMeter))
          (some (.inl ⟨[0, 1], none⟩)) (some "linear") none) defaultTS).interpCounter) :=
  C5_interp_time_counter_and_notice _ _ _

theorem tsInitExpression_data {me : MathematicalExpression} {r : Option Frac}
    {ts : TimeSeries} (h : tsInitExpression me r = .ok ts) :
    ts.dataTS = .inr me := by
  unfold tsInitExpression at h
  split at h
  · simp at h
  · simp only [] at h
    split at h
    · simp at h
    · simp at h
    · split at h
      · simp at h
      · split at h
        · simp at h
        · simp only [Except.ok.injEq] at h
          rw [← h]

theorem setInterpolation_result_step (ts ts2 : TimeSeries) (m : String)
    (da : DataArray) (hd : ts2.dataTS = .inl da) (hlen : timeLen da ≤ 1)
    (h : ts.setInterpolation m = .ok ts2) : ts2.interpolation = some "step" := by
  unfold TimeSeries.setInterpolation at h
  split at h
  · -- expression-backed: the setter is a no-op, contradicting `hd`
    rename_i heq
    simp only [Except.ok.injEq] at h
    subst h
    rw [heq] at hd
    exact absurd hd (by simp)
  · rename_i da' heq
    split at h
    · simp only [Except.ok.injEq] at h
      subst h
      simp only [Sum.inl.injEq] at hd
      have hlen' : timeLen da' ≤ 1 := by
        have hx : timeLen da' = timeLen da := by
          rw [← hd]
          rfl
        omega
      have htp : ts.timeProp = none := by
        simp only [TimeSeries.timeProp, heq, gt_iff_lt]
        rw [if_neg (by omega)]
      simp only [TimeSeries.interpolation, lookup_setAssoc_self]
      by_cases hm : m = "step"
      · simp [htp, hm]
      · simp [htp, hm]
    · simp at h

/-- C6: every discrete `TimeSeries` whose array carries exactly one time
point (including the degenerate series created without a time coordinate)
has interpolation mode `step` after construction, and the interpolation
setter preserves this: writing any mode to a single-point series results in
`step`. -/
theorem C6_single_point_step :
    (∀ (d : TSData) (t : Option TimeArg) (i : Option String) (r : Option Frac)
      (ts : TimeSeries) (da : DataArray),
      TimeSeries.construct d t i r = .ok ts → ts.dataTS = .inl da →
      timeLen da = 1 → ts.interpolation = some "step") ∧
    (∀ (ts ts2 : TimeSeries) (m : String) (da : DataArray),
      ts.dataTS = .inl da → timeLen da = 1 →
      ts.setInterpolation m = .ok ts2 → ts2.interpolation = some "step") := by
  constructor
  · intro d t i r ts da hc hd hlen
    have hstep : ∀ (x : Sum PQuantity DataArray),
        tsInitializeDiscrete x t i r = .ok ts → ts.interpolation = some "step" := by
      intro x hx
      unfold tsInitializeDiscrete at hx
      obtain ⟨ts', _, hset⟩ := exBindOk hx
      exact setInterpolation_result_step ts' ts _ da hd (by omega) hset
    cases d with
    | q p =>
      simp only [TimeSeries.construct] at hc
      exact hstep _ hc
    | da d' =>
      simp only [TimeSeries.construct] at hc
      exact hstep _ hc
    | me m' =>
      simp only [TimeSeries.construct] at hc
      have := tsInitExpression_data hc
      rw [hd] at this
      exact absurd this (by simp)
  · intro ts ts2 m da hd hlen hset
    unfold TimeSeries.setInterpolation at hset
    split at hset
    · rename_i heq
      rw [heq] at hd
      exact absurd hd (by simp)
    · rename_i da' heq
      have hda' : da' = da := by
        rw [heq] at hd
        simpa using hd
      split at hset
      · simp only [Except.ok.injEq] at hset
        have htp : ts.timeProp = none := by
          simp only [TimeSeries.timeProp, heq, gt_iff_lt]
          rw [hda', if_neg (by omega)]
        rw [← hset]
        simp only [TimeSeries.interpolation, lookup_setAssoc_self]
        by_cases hm : m = "step"
        · simp [htp, hm]
        · simp [htp, hm]
      · simp at hset

/-- Witness for C6: the degenerate one-sample series has mode `step` even
though `linear` was requested, and writing `quadratic` still leaves `step`. -/
theorem C6_single_point_step_witness :
    TimeSeries.construct (.q (scalarQ 5 uMeter)) none (some "linear") none =
      .ok C6ts ∧
    C6ts.dataTS = .inl C6da ∧ timeLen C6da = 1 ∧
    C6ts.interpolation = some "step" ∧
    C6ts.setInterpolation "quadratic" = .ok C6ts2 ∧
    C6ts2.interpolation = some "step" :=
  ⟨rfl, rfl, by decide,
    C6_single_point_step.1 (.q (scalarQ 5 uMeter)) none (some "linear") none C6ts
      C6da (by rfl) rfl (by decide),
    rfl,
    C6_single_point_step.2 C6ts C6ts2 "quadratic" C6da rfl (by decide) (by rfl)⟩

theorem exBindErr {α β : Type} {e : Except PyErr α} {f : α → Except PyErr β}
    {err : PyErr} (h : (e >>= f) = .error err) :
    e = .error err ∨ ∃ a, e = .ok a ∧ f a = .error err := by
  cases e with
  | ok a => exact Or.inr ⟨a, rfl, h⟩
  | error e' =>
    simp only [Bind.bind, Except.bind, Except.error.injEq] at h
    left
    rw [h]

theorem alignCheck_err {a b : DataArray} {l : List String} {e : PyErr}
    (h : alignCheck a b l = .error e) :
    ∃ d, e = .valueError (msgConflictingSizes d) ∨
      e = .valueError (msgConflictingCoords d) := by
  induction l with
  | nil => simp [alignCheck] at h
  | cons d rest ih =>
    unfold alignCheck at h
    split at h
    · split at h
      · simp only [Except.error.injEq] at h
        exact ⟨d, Or.inl h.symm⟩
      · split at h
        · simp only [Except.error.injEq] at h
          exact ⟨d, Or.inr h.symm⟩
        · exact ih h
    · exact ih h

theorem sizes_ne_ambiguous (d : String) (l : List String) :
    msgConflictingSizes d ≠ msgAlreadyDefined l := by
  unfold msgConflictingSizes msgAlreadyDefined
  intro h
  have h2 := congrArg String.data h
  simp [String.data_append] at h2

theorem coords_ne_ambiguous (d : String) (l : List String) :
    msgConflictingCoords d ≠ msgAlreadyDefined l := by
  unfold msgConflictingCoords msgAlreadyDefined
  intro h
  have h2 := congrArg String.data h
  simp [String.data_append] at h2

theorem broadcastOf_err {a b : DataArray} {e : PyErr}
    (h : broadcastOf a b = .error e) :
    ∃ d, e = .valueError (msgConflictingSizes d) ∨
      e = .valueError (msgConflictingCoords d) := by
  unfold broadcastOf at h
  rcases exBindErr h with h' | ⟨u, _, h'⟩
  · exact alignCheck_err h'
  · exact Except.noConfusion h'

theorem addDA_err {a b : DataArray} {e : PyErr} (h : addDA a b = .error e) :
    e = .dimensionality ∨ ∃ d, e = .valueError (msgConflictingSizes d) ∨
      e = .valueError (msgConflictingCoords d) := by
  unfold addDA at h
  rcases exBindErr h with h' | ⟨u, _, h'⟩
  · exact Or.inr (broadcastOf_err h')
  · split at h'
    · simp only [throw, throwThe, MonadExceptOf.throw, Except.error.injEq] at h'
      exact Or.inl h'.symm
    · exact Except.noConfusion h'

theorem mulDA_err {a b : DataArray} {e : PyErr} (h : mulDA a b = .error e) :
    ∃ d, e = .valueError (msgConflictingSizes d) ∨
      e = .valueError (msgConflictingCoords d) := by
  unfold mulDA at h
  rcases exBindErr h with h' | ⟨u, _, h'⟩
  · exact broadcastOf_err h'
  · exact Except.noConfusion h'

theorem evalEnv_not_ambiguous (e : SymExpr) (env : List (String × DataArray))
    (l : List String) :
    e.evalEnv env ≠ .error (.valueError (msgAlreadyDefined l)) := by
  induction e with
  | var n =>
    unfold SymExpr.evalEnv
    split <;> simp
  | const q => simp [SymExpr.evalEnv]
  | add a b iha ihb =>
    intro h
    unfold SymExpr.evalEnv at h
    rcases exBindErr h with h' | ⟨ra, _, h'⟩
    · exact iha h'
    · rcases exBindErr h' with h'' | ⟨rb, _, h''⟩
      · exact ihb h''
      · rcases addDA_err h'' with h3 | ⟨d, h3 | h3⟩
        · simp at h3
        · simp only [PyErr.valueError.injEq] at h3
          exact sizes_ne_ambiguous d l h3.symm
        · simp only [PyErr.valueError.injEq] at h3
          exact coords_ne_ambiguous d l h3.symm
  | mul a b iha ihb =>
    intro h
    unfold SymExpr.evalEnv at h
    rcases exBindErr h with h' | ⟨ra, _, h'⟩
    · exact iha h'
    · rcases exBindErr h' with h'' | ⟨rb, _, h''⟩
      · exact ihb h''
      · rcases mulDA_err h'' with ⟨d, h3 | h3⟩
        · simp only [PyErr.valueError.injEq] at h3
          exact sizes_ne_ambiguous d l h3.symm
        · simp only [PyErr.valueError.injEq] at h3
          exact coords_ne_ambiguous d l h3.symm

/-- C8 (amended): `evaluate` raises the ambiguous-rebinding error if and only
if some supplied binding name is already a bound parameter; when no collision
exists, evaluation proceeds to the underlying lambdified evaluation, which
never raises the ambiguous-rebinding error but may fail for other reasons
(such as a unit dimensionality mismatch). -/
theorem C8_evaluate_rebinding (me : MathematicalExpression)
    (kwargs : List (String × MEParamVal)) :
    (me.evaluate kwargs = .error (.valueError (msgAlreadyDefined
        ((kwargs.map Prod.fst).filter
          (fun k => me.parameters.any (fun p => p.1 = k))))) ↔
      (kwargs.map Prod.fst).filter
        (fun k => me.parameters.any (fun p => p.1 = k)) ≠ []) ∧
    ((kwargs.map Prod.fst).filter
        (fun k => me.parameters.any (fun p => p.1 = k)) = [] →
      me.evaluate kwargs = me.expression.evalEnv (evalEnvOf me kwargs)) := by
  constructor
  · constructor
    · intro h hempty
      unfold MathematicalExpression.evaluate at h
      rw [if_neg (by simp [hempty])] at h
      exact evalEnv_not_ambiguous me.expression (evalEnvOf me kwargs) _ h
    · intro hne
      unfold MathematicalExpression.evaluate
      rw [if_pos hne]
  · intro hempty
    unfold MathematicalExpression.evaluate
    rw [if_neg (by simp [hempty])]

/-- Witness for C8 (amended): a collision-free call proceeds to the core
evaluation. -/
theorem C8_evaluate_rebinding_witness :
    ((⟨.add (.var "a") (.var "t"),
        [("a", .inl (scalarQ 1 uMeter))]⟩ : MathematicalExpression).evaluate
        [("t", .inl (scalarQ 1 uSecond))] =
      .error (.valueError (msgAlreadyDefined
        ((["t"]).filter (fun k =>
          [("a", (Sum.inl (scalarQ 1 uMeter) : MEParamVal))].any
            (fun p => p.1 = k))))) ↔
      (["t"]).filter (fun k =>
        [("a", (Sum.inl (scalarQ 1 uMeter) : MEParamVal))].any
          (fun p => p.1 = k)) ≠ []) ∧
    ((["t"]).filter (fun k =>
        [("a", (Sum.inl (scalarQ 1 uMeter) : MEParamVal))].any
          (fun p => p.1 = k)) = [] →
      (⟨.add (.var "a") (.var "t"),
        [("a", .inl (scalarQ 1 uMeter))]⟩ : MathematicalExpression).evaluate
        [("t", .inl (scalarQ 1 uSecond))] =
      (SymExpr.add (.var "a") (.var "t")).evalEnv
        (evalEnvOf ⟨.add (.var "a") (.var "t"),
          [("a", .inl (scalarQ 1 uMeter))]⟩ [("t", .inl (scalarQ 1 uSecond))])) :=
  C8_evaluate_rebinding _ _

/-- Counterexample for C8 as stated: evaluating `a + t` (with `a` bound to
one meter) at `t` equal to one second raises a dimensionality error although
no supplied binding name collides with a bound parameter, so `evaluate` can
raise an error without a collision. -/
theorem C8_counterexample :
    errOf ((⟨.add (.var "a") (.var "t"),
        [("a", .inl (scalarQ 1 uMeter))]⟩ : MathematicalExpression).evaluate
      [("t", .inl (scalarQ 1 uSecond))]) = some .dimensionality ∧
    (["t"]).filter (fun k =>
      [("a", (Sum.inl (scalarQ 1 uMeter) : MEParamVal))].any
        (fun p => p.1 = k)) = [] := by
  constructor
  · rfl
  · rfl

/-- C2: constructing an expression-backed `TimeSeries` (after the
one-free-variable check and the scalar probe at one second succeed) performs
a double probe, calling `interp_time` with a 2-element and then a 3-element
time-delta array on the partially-built series; if either probe fails,
construction fails with the error explaining that expression parameters
sharing a dimension with the time variable must carry a broadcastable outer
dimension of size 1, wrapping the probe's original message. -/
theorem C2_double_probe (me : MathematicalExpression) (t : Option TimeArg)
    (i : Option String) (r0 : Option Frac) (res : DataArray)
    (h1 : me.num_variables = 1)
    (h2 : me.evaluate [(me.get_variable_names.headD "", .inl (scalarQ 1 uSecond))] =
      .ok res) :
    (TimeSeries.construct (.me me) t i r0 =
      (match ((tsProbeStage me r0 res).interp_time
          (.inr (listQ [1, 2] uSecond)) uSecond).2 with
      | .error e => .error (.exception (msgAliasing (pyMsg e)))
      | .ok _ =>
        match ((tsProbeStage me r0 res).interp_time
            (.inr (listQ [1, 2, 3] uSecond)) uSecond).2 with
        | .error e => .error (.exception (msgAliasing (pyMsg e)))
        | .ok _ => .ok (tsProbeStage me r0 res))) ∧
    (∀ e : PyErr,
      (((tsProbeStage me r0 res).interp_time
          (.inr (listQ [1, 2] uSecond)) uSecond).2 = .error e ∨
        (∃ x, ((tsProbeStage me r0 res).interp_time
            (.inr (listQ [1, 2] uSecond)) uSecond).2 = .ok x ∧
          ((tsProbeStage me r0 res).interp_time
            (.inr (listQ [1, 2, 3] uSecond)) uSecond).2 = .error e)) →
      TimeSeries.construct (.me me) t i r0 =
        .error (.exception (msgAliasing (pyMsg e)))) := by
  have hmain : TimeSeries.construct (.me me) t i r0 =
      (match ((tsProbeStage me r0 res).interp_time
          (.inr (listQ [1, 2] uSecond)) uSecond).2 with
      | .error e => .error (.exception (msgAliasing (pyMsg e)))
      | .ok _ =>
        match ((tsProbeStage me r0 res).interp_time
            (.inr (listQ [1, 2, 3] uSecond)) uSecond).2 with
        | .error e => .error (.exception (msgAliasing (pyMsg e)))
        | .ok _ => .ok (tsProbeStage me r0 res)) := by
    simp only [TimeSeries.construct, tsInitExpression, h1, ne_eq,
      not_true_eq_false, if_false, h2, tsProbeStage]
  refine ⟨hmain, ?_⟩
  intro e he
  rw [hmain]
  rcases he with he | ⟨x, hx, he⟩
  · rw [he]
  · rw [hx, he]

/-- Witness for C2: `C2me` passes the scalar probe but fails the 2-element
time-array probe because its parameter occupies the `time` dimension with
length 4, so construction fails with the aliasing error. -/
theorem C2_double_probe_witness :
    C2me.num_variables = 1 ∧
    C2me.evaluate [(C2me.get_variable_names.headD "",
      .inl (scalarQ 1 uSecond))] = .ok C2res ∧
    (TimeSeries.construct (.me C2me) none none none =
      (match ((tsProbeStage C2me none C2res).interp_time
          (.inr (listQ [1, 2] uSecond)) uSecond).2 with
      | .error e => .error (.exception (msgAliasing (pyMsg e)))
      | .ok _ =>
        match ((tsProbeStage C2me none C2res).interp_time
            (.inr (listQ [1, 2, 3] uSecond)) uSecond).2 with
        | .error e => .error (.exception (msgAliasing (pyMsg e)))
        | .ok _ => .ok (tsProbeStage C2me none C2res))) ∧
    errOf (TimeSeries.construct (.me C2me) none none none) =
      some (.exception (msgAliasing (msgConflictingSizes "time"))) :=
  ⟨by decide, by rfl,
    (C2_double_probe C2me none none none C2res (by decide) (by rfl)).1,
    by rfl⟩

theorem any_map_setkey_ne {α : Type} (l : List (String × α)) (k k' : String)
    (v : α) (h : k' ≠ k) :
    ((l.map (fun p => if p.1 = k then (k, v) else p)).any
        (fun p => p.1 = k')) = l.any (fun p => p.1 = k') := by
  induction l with
  | nil => simp
  | cons a rest ih =>
    simp only [List.map_cons, List.any_cons]
    by_cases ha : a.1 = k
    · rw [if_pos ha]
      have hx : (decide ((k, v).1 = k')) = decide (a.1 = k') := by
        simp only [decide_eq_decide]
        constructor
        · intro hk
          exact absurd hk.symm (ha ▸ h)
        · intro hk
          exact absurd (ha ▸ hk : k = k').symm h
      rw [hx, ih]
    · rw [if_neg ha, ih]

theorem any_setAssoc_ne {α : Type} (l : List (String × α)) (k k' : String)
    (v : α) (h : k' ≠ k) :
    (setAssoc l k v).any (fun p => p.1 = k') = l.any (fun p => p.1 = k') := by
  unfold setAssoc
  by_cases hl : l.any (fun p => p.1 = k) = true
  · simp only [hl, if_true]
    exact any_map_setkey_ne l k k' v h
  · simp only [Bool.not_eq_true] at hl
    simp only [hl, Bool.false_eq_true, if_false, List.any_append]
    have hx : ([(k, v)].any fun p => p.1 = k') = false := by
      simp only [List.any_cons, List.any_nil, Bool.or_false, decide_eq_false_iff_not]
      exact fun hk => h hk.symm
    rw [hx, Bool.or_false]

theorem length_setAssoc_new {α : Type} (l : List (String × α)) (k : String)
    (v : α) (h : l.any (fun p => p.1 = k) = false) :
    (setAssoc l k v).length = l.length + 1 := by
  unfold setAssoc
  simp [h]

theorem any_removeAssoc_ne {α : Type} (l : List (String × α)) (k k' : String)
    (h : k' ≠ k) :
    (removeAssoc l k).any (fun p => p.1 = k') = l.any (fun p => p.1 = k') := by
  unfold removeAssoc
  induction l with
  | nil => simp
  | cons a rest ih =>
    rw [List.filter_cons]
    by_cases ha : a.1 = k
    · have h1 : (decide (a.1 ≠ k)) = false := by simp [ha]
      have h2 : (decide (a.1 = k')) = false := by
        simp only [decide_eq_false_iff_not]
        intro hk
        exact h (hk ▸ ha : k' = k)
      rw [if_neg (by simp [ha]), List.any_cons, h2, Bool.false_or, ih]
    · rw [if_pos (by simp [ha]), List.any_cons, List.any_cons, ih]

theorem any_of_lookup {α : Type} (l : List (String × α)) (k : String) (v : α)
    (h : l.lookup k = some v) : l.any (fun p => p.1 = k) = true := by
  induction l with
  | nil => simp [List.lookup] at h
  | cons a rest ih =>
    simp only [List.lookup] at h
    by_cases hk : (k == a.1) = true
    · simp only [List.any_cons, Bool.or_eq_true, decide_eq_true_eq]
      exact Or.inl (beq_iff_eq.mp hk).symm
    · simp only [Bool.not_eq_true] at hk
      rw [hk] at h
      simp only [List.any_cons, Bool.or_eq_true]
      exact Or.inr (ih h)

theorem lookupMem {α : Type} (l : List (String × α)) (k : String) (v : α)
    (h : l.lookup k = some v) : (k, v) ∈ l := by
  induction l with
  | nil => simp [List.lookup] at h
  | cons a rest ih =>
    simp only [List.lookup] at h
    by_cases hk : (k == a.1) = true
    · rw [hk] at h
      simp only [Option.some.injEq] at h
      have hk' := beq_iff_eq.mp hk
      have hx : (k, v) = a := by
        cases a with
        | mk a1 a2 =>
          simp only [Prod.mk.injEq]
          exact ⟨hk', h.symm⟩
      rw [hx]
      exact List.mem_cons_self a rest
    · simp only [Bool.not_eq_true] at hk
      rw [hk] at h
      exact List.mem_cons_of_mem a (ih h)

theorem mem_dedupFold (l : List String) (x : String) :
    x ∈ l.foldl (fun acc d => if acc.contains d then acc else acc ++ [d]) [] ↔
      x ∈ l := by
  have key : ∀ (l : List String) (init : List String),
      x ∈ l.foldl (fun acc d => if acc.contains d then acc else acc ++ [d]) init ↔
        x ∈ init ∨ x ∈ l := by
    intro l
    induction l with
    | nil => intro init; simp
    | cons a rest ih =>
      intro init
      simp only [List.foldl_cons]
      by_cases ha : init.contains a = true
      · rw [if_pos ha, ih]
        constructor
        · rintro (h | h)
          · exact Or.inl h
          · exact Or.inr (List.mem_cons_of_mem a h)
        · rintro (h | h)
          · exact Or.inl h
          · rcases List.mem_cons.mp h with h | h
            · exact Or.inl (h ▸ List.mem_of_elem_eq_true ha)
            · exact Or.inr h
      · rw [if_neg ha, ih]
        simp only [List.mem_append, List.mem_singleton, List.mem_cons]
        tauto
  rw [key l []]
  simp

theorem mapM_ok {α β : Type} (f : α → Except PyErr β) (l : List α)
    (h : ∀ x ∈ l, ∃ y, f x = .ok y) : ∃ out, l.mapM f = .ok out := by
  induction l with
  | nil => exact ⟨[], rfl⟩
  | cons a rest ih =>
    obtain ⟨y, hy⟩ := h a (List.mem_cons_self a rest)
    obtain ⟨out, hout⟩ := ih (fun x hx => h x (List.mem_cons_of_mem a hx))
    refine ⟨y :: out, ?_⟩
    rw [List.mapM_cons, hy, hout]
    rfl

theorem gsBuildItem_expr (gs : GenericSeries) (me : MathematicalExpression)
    (sdims : List (String × List String)) (kv : String × PQuantity)
    (hdata : gs.dataG = .inr me) (hsd : gs.symbolDims = some sdims)
    (hn : ∃ n, kv.2.qshape = [n]) (hd : ∃ d, sdims.lookup kv.1 = some [d]) :
    gsBuildItem gs kv = .ok (kv.1, .inl (exprInputDA sdims kv)) := by
  obtain ⟨n, hn⟩ := hn
  obtain ⟨d, hd⟩ := hd
  unfold gsBuildItem
  rw [hdata, hsd]
  have hel : (if kv.2.qshape = [] then
        (⟨[1], fun _ => kv.2.qval [], kv.2.unit⟩ : PQuantity)
      else kv.2) = kv.2 := by
    rw [if_neg (by simp [hn])]
  rw [hel]
  simp only [Option.getD_some, hd]
  simp only [Bind.bind, Except.bind, pure, Except.pure, mkDAofQ, hn]
  rw [if_pos (by simp)]
  simp only [exprInputDA, hd, hn, Option.getD_some]

theorem gsBuildInput_expr (gs : GenericSeries) (me : MathematicalExpression)
    (sdims : List (String × List String)) (kwargs : List (String × PQuantity))
    (hdata : gs.dataG = .inr me) (hsd : gs.symbolDims = some sdims)
    (hok : ∀ kv ∈ kwargs, (∃ n, kv.2.qshape = [n]) ∧
      ∃ d, sdims.lookup kv.1 = some [d]) :
    gsBuildInput gs kwargs =
      .ok (kwargs.map (fun kv => (kv.1, .inl (exprInputDA sdims kv)))) := by
  induction kwargs with
  | nil => rfl
  | cons kv rest ih =>
    obtain ⟨hn, hd⟩ := hok kv (List.mem_cons_self kv rest)
    unfold gsBuildInput
    rw [gsBuildItem_expr gs me sdims kv hdata hsd hn hd,
      ih (fun kv2 h2 => hok kv2 (List.mem_cons_of_mem kv h2))]
    rfl

theorem set_parameters_tup_ok (me : MathematicalExpression) (k : String)
    (v : PQuantity) (ds : List String)
    (hk : me.expression.freeSymbols.contains k = true)
    (hds : ds.length = v.qshape.length) :
    me.set_parameters [(k, .tup v ds)] =
      .ok ⟨me.expression, setAssoc me.parameters k
        (.inr ⟨ds, v.qshape, v.qval, some v.unit, [], []⟩)⟩ := by
  have hmem : k ∈ me.expression.freeSymbols := List.mem_of_elem_eq_true hk
  simp [MathematicalExpression.set_parameters, setParamsLoop, hmem, mkDAofQ, hds,
    Bind.bind, Except.bind, pure, Except.pure]

theorem gsBindLoop_ok (orig : List (String × List String))
    (kwargs : List (String × PQuantity)) :
    ∀ (cur : MathematicalExpression) (sdims : List (String × List String))
      (vunits : List (String × UnitEx)),
    (kwargs.map Prod.fst).Nodup →
    (∀ kv ∈ kwargs, cur.expression.freeSymbols.contains kv.1 = true) →
    (∀ kv ∈ kwargs, cur.parameters.any (fun p => p.1 = kv.1) = false) →
    (∀ kv ∈ kwargs, ∃ ds, orig.lookup kv.1 = some ds ∧
      ds.length = kv.2.qshape.length) →
    (∀ kv ∈ kwargs, sdims.any (fun q => q.1 = kv.1) = true) →
    (∀ kv ∈ kwargs, vunits.any (fun q => q.1 = kv.1) = true) →
    ∃ cur' sdims' vunits',
      gsBindLoop orig cur sdims vunits kwargs = .ok (cur', sdims', vunits') ∧
      cur'.expression = cur.expression ∧
      cur'.parameters.length = cur.parameters.length + kwargs.length ∧
      (∀ kv ∈ kwargs, ∀ ds, orig.lookup kv.1 = some ds →
        cur'.parameters.lookup kv.1 =
          some (.inr ⟨ds, kv.2.qshape, kv.2.qval, some kv.2.unit, [], []⟩)) ∧
      (∀ k, (kwargs.map Prod.fst).contains k = false →
        cur'.parameters.lookup k = cur.parameters.lookup k) := by
  induction kwargs with
  | nil =>
    intro cur sdims vunits _ _ _ _ _ _
    exact ⟨cur, sdims, vunits, rfl, rfl, rfl, by simp, fun _ _ => rfl⟩
  | cons p rest ih =>
    intro cur sdims vunits hnodup hfree hparams horig hsd hvu
    obtain ⟨ds, hds, hdlen⟩ := horig p (List.mem_cons_self p rest)
    have hfp := hfree p (List.mem_cons_self p rest)
    have hpp := hparams p (List.mem_cons_self p rest)
    have hsdp := hsd p (List.mem_cons_self p rest)
    have hvup := hvu p (List.mem_cons_self p rest)
    simp only [List.map_cons, List.nodup_cons] at hnodup
    obtain ⟨hnotmem, hnodup'⟩ := hnodup
    have hpne : ∀ kv ∈ rest, kv.1 ≠ p.1 := by
      intro kv hkv he
      exact hnotmem (he ▸ List.mem_map_of_mem Prod.fst hkv)
    set V : MEParamVal :=
      .inr ⟨ds, p.2.qshape, p.2.qval, some p.2.unit, [], []⟩ with hV
    set cur1 : MathematicalExpression :=
      ⟨cur.expression, setAssoc cur.parameters p.1 V⟩ with hcur1
    obtain ⟨cur', sdims', vunits', heq, hexpr, hlen, hlk, hpres⟩ :=
      ih cur1 (removeAssoc sdims p.1) (removeAssoc vunits p.1) hnodup'
        (fun kv hkv => hfree kv (List.mem_cons_of_mem p hkv))
        (fun kv hkv => by
          rw [hcur1]
          show (setAssoc cur.parameters p.1 V).any (fun q => q.1 = kv.1) = false
          rw [any_setAssoc_ne _ _ _ _ (hpne kv hkv)]
          exact hparams kv (List.mem_cons_of_mem p hkv))
        (fun kv hkv => horig kv (List.mem_cons_of_mem p hkv))
        (fun kv hkv => by
          rw [any_removeAssoc_ne _ _ _ (hpne kv hkv)]
          exact hsd kv (List.mem_cons_of_mem p hkv))
        (fun kv hkv => by
          rw [any_removeAssoc_ne _ _ _ (hpne kv hkv)]
          exact hvu kv (List.mem_cons_of_mem p hkv))
    refine ⟨cur', sdims', vunits', ?_, ?_, ?_, ?_, ?_⟩
    · unfold gsBindLoop
      rw [hds]
      simp only [Bind.bind, Except.bind, pure, Except.pure]
      rw [set_parameters_tup_ok cur p.1 p.2 ds hfp hdlen]
      simp only [Bind.bind, Except.bind]
      rw [if_neg (by simp [hsdp]), if_neg (by simp [hvup])]
      exact heq
    · rw [hexpr, hcur1]
    · rw [hlen, hcur1]
      show (setAssoc cur.parameters p.1 V).length + rest.length =
        cur.parameters.length + (rest.length + 1)
      rw [length_setAssoc_new _ _ _ hpp]
      omega
    · intro kv hkv ds' hds'
      rcases List.mem_cons.mp hkv with hkv | hkv
      · subst hkv
        rw [hds] at hds'
        injection hds' with hds'
        subst hds'
        have hc : (rest.map Prod.fst).contains kv.1 = false := by
          cases hc : (rest.map Prod.fst).contains kv.1
          · rfl
          · exact absurd (List.mem_of_elem_eq_true hc) hnotmem
        rw [hpres kv.1 hc, hcur1]
        show (setAssoc cur.parameters kv.1 V).lookup kv.1 = some V
        exact lookup_setAssoc_self _ _ _
      · exact hlk kv hkv ds' hds'
    · intro k hk
      simp only [List.map_cons, List.contains_cons, Bool.or_eq_false_iff] at hk
      obtain ⟨hk1, hk2⟩ := hk
      rw [hpres k hk2, hcur1]
      show (setAssoc cur.parameters p.1 V).lookup k = cur.parameters.lookup k
      apply lookup_setAssoc_ne
      intro he
      rw [he] at hk1
      simp at hk1

/-- C1 (amended): binding `k` of the `n` free variables of an
expression-backed `GenericSeries` returns a new expression-backed series
reporting exactly `n - k` remaining free variables; however, the dimensions
owned by the bound variables are still listed in `dims`, because each bound
value is stored as a nonempty array-valued parameter laid out on exactly
those dimensions and `_get_expression_dims` includes every nonempty array
parameter's dimensions. -/
theorem C1_partial_binding_dims
    (gs : GenericSeries) (me : MathematicalExpression)
    (sdims : List (String × List String)) (vunits : List (String × UnitEx))
    (kwargs : List (String × PQuantity))
    (hdata : gs.dataG = .inr me)
    (hsd : gs.symbolDims = some sdims)
    (hvu : gs.variableUnits = some vunits)
    (hnodup : (kwargs.map Prod.fst).Nodup)
    (hvars : ∀ kv ∈ kwargs, kv.1 ∈ me.get_variable_names)
    (hshape : ∀ kv ∈ kwargs, ∃ n, kv.2.qshape = [n] ∧ 0 < n)
    (hds1 : ∀ kv ∈ kwargs, ∃ d, sdims.lookup kv.1 = some [d])
    (hvl : ∀ kv ∈ kwargs, ∃ u, vunits.lookup kv.1 = some u)
    (hlt : kwargs.length < me.num_variables) :
    ∃ gs' me', gs.callGS kwargs = .ok gs' ∧ gs'.dataG = .inr me' ∧
      me'.num_variables = me.num_variables - kwargs.length ∧
      (∀ kv ∈ kwargs, ∀ ds, sdims.lookup kv.1 = some ds →
        ∀ d ∈ ds, d ∈ gs'.dims) := by
  -- the coerced-input construction succeeds on every entry
  have hbuild : ∃ input, gsBuildInput gs kwargs = .ok input := by
    refine ⟨_, gsBuildInput_expr gs me sdims kwargs hdata hsd ?_⟩
    intro kv hkv
    obtain ⟨n, hn, _⟩ := hshape kv hkv
    exact ⟨⟨n, hn⟩, hds1 kv hkv⟩
  obtain ⟨input, hinput⟩ := hbuild
  -- the free-symbol facts needed by the binding loop
  have hfree : ∀ kv ∈ kwargs, me.expression.freeSymbols.contains kv.1 = true := by
    intro kv hkv
    have := (List.mem_filter.mp (hvars kv hkv)).1
    exact List.elem_eq_true_of_mem this
  have hparams : ∀ kv ∈ kwargs,
      me.parameters.any (fun p => p.1 = kv.1) = false := by
    intro kv hkv
    have h2 := (List.mem_filter.mp (hvars kv hkv)).2
    simpa using h2
  obtain ⟨cur', sdims', vunits', heq, hexpr, hlen, hlk, _⟩ :=
    gsBindLoop_ok sdims kwargs me sdims vunits hnodup hfree hparams
      (fun kv hkv => by
        obtain ⟨d, hd⟩ := hds1 kv hkv
        obtain ⟨n, hn, _⟩ := hshape kv hkv
        exact ⟨[d], hd, by simp [hn]⟩)
      (fun kv hkv => by
        obtain ⟨d, hd⟩ := hds1 kv hkv
        exact any_of_lookup sdims kv.1 [d] hd)
      (fun kv hkv => by
        obtain ⟨u, hu⟩ := hvl kv hkv
        exact any_of_lookup vunits kv.1 u hu)
  have hcall : gs.callGS kwargs = .ok { gs with
      dataG := .inr cur'
      symbolDims := some sdims'
      variableUnits := some vunits' } := by
    unfold GenericSeries.callGS
    rw [hinput]
    simp only [Bind.bind, Except.bind]
    split
    · rename_i me' hx
      rw [hdata] at hx
      injection hx with hx
      subst hx
      rw [if_neg (by omega)]
      unfold gsBindVars
      split
      · rename_i da hx2
        rw [hdata] at hx2
        exact absurd hx2 (by simp)
      · rename_i me'' hx2
        rw [hdata] at hx2
        injection hx2 with hx2
        subst hx2
        simp only [hsd, hvu, Option.getD_some]
        rw [heq]
        simp only [Bind.bind, Except.bind, pure, Except.pure]
    · rename_i da hx
      rw [hdata] at hx
      exact absurd hx (by simp)
  refine ⟨_, cur', hcall, rfl, ?_, ?_⟩
  · unfold MathematicalExpression.num_variables
    rw [hexpr, hlen]
    omega
  · intro kv hkv ds hds' d hd
    have hlk' := hlk kv hkv ds hds'
    have hmem := lookupMem _ _ _ hlk'
    obtain ⟨n, hn, hnpos⟩ := hshape kv hkv
    show d ∈ GenericSeries.dims _
    unfold GenericSeries.dims
    simp only [getExpressionDims]
    rw [mem_dedupFold]
    rw [List.mem_append]
    right
    rw [List.mem_flatMap]
    refine ⟨(kv.1, .inr ⟨ds, kv.2.qshape, kv.2.qval, some kv.2.unit, [], []⟩), hmem, ?_⟩
    simp only [wrapArg, hn]
    rw [if_pos (by simp [List.foldl]; omega)]
    exact hd

/-- Counterexample for C1 as stated: in the series over `x * y` the dimension
`x` is owned solely by the variable `x`, yet after binding `x` (one of two
variables, so one remains) the returned series still lists `x` among its
`dims` — the bound value lives on as an array-valued parameter laid out on
`x`.  The claim that `dims` no longer contains any dimension solely owned by
the bound variables is therefore false on the code. -/
theorem C1_counterexample :
    isOkE (C1gs.callGS [("x", listQ [1, 2] uOne)]) = true ∧
    C1res.numVariables = 1 ∧
    "x" ∈ C1res.dims := by
  refine ⟨by rfl, by rfl, by decide⟩

/-- Witness for the amended C1: binding `x` in the `x * y` series leaves one
variable and keeps the dimension `x` in `dims`. -/
theorem C1_partial_binding_dims_witness :
    C1gs.dataG = .inr C1me ∧
    (∃ gs' me', C1gs.callGS [("x", listQ [1, 2] uOne)] = .ok gs' ∧
      gs'.dataG = .inr me' ∧
      me'.num_variables = C1me.num_variables - 1 ∧
      (∀ kv ∈ [("x", listQ [1, 2] uOne)], ∀ ds,
        (C1gs.symbolDims.getD []).lookup kv.1 = some ds →
        ∀ d ∈ ds, d ∈ gs'.dims)) :=
  ⟨rfl,
    C1_partial_binding_dims C1gs C1me (C1gs.symbolDims.getD [])
      (C1gs.variableUnits.getD []) [("x", listQ [1, 2] uOne)]
      rfl rfl rfl (by decide)
      (by
        intro kv hkv
        rcases List.mem_singleton.mp hkv with rfl
        decide)
      (by
        intro kv hkv
        rcases List.mem_singleton.mp hkv with rfl
        exact ⟨2, rfl, by decide⟩)
      (by
        intro kv hkv
        rcases List.mem_singleton.mp hkv with rfl
        exact ⟨"x", rfl⟩)
      (by
        intro kv hkv
        rcases List.mem_singleton.mp hkv with rfl
        exact ⟨[], rfl⟩)
      (by decide)⟩

theorem lookup_map_keyed {α β : Type} (l : List (String × α))
    (g : String → α → β) (k : String) :
    (l.map (fun p => (p.1, g p.1 p.2))).lookup k = (l.lookup k).map (g k) := by
  induction l with
  | nil => simp
  | cons a rest ih =>
    simp only [List.map_cons, List.lookup]
    by_cases hk : (k == a.1) = true
    · simp only [hk, Option.map_some]
      rw [beq_iff_eq.mp hk]
      rfl
    · simp only [Bool.not_eq_true] at hk
      simp only [hk, ih]

theorem lookup_append_or {α : Type} (l1 l2 : List (String × α)) (k : String) :
    (l1 ++ l2).lookup k =
      ((l1.lookup k).orElse (fun _ => l2.lookup k)) := by
  induction l1 with
  | nil => simp [List.lookup]
  | cons a rest ih =>
    simp only [List.cons_append, List.lookup]
    by_cases hk : (k == a.1) = true
    · simp [hk]
    · simp only [Bool.not_eq_true] at hk
      simp [hk, ih]

theorem addDA_ok_unit {a b r : DataArray} (h : addDA a b = .ok r) :
    r.unit = some (unitOf a) := by
  unfold addDA at h
  obtain ⟨x, _, h⟩ := exBindOk h
  split at h
  · exact absurd h (by simp [throw, throwThe, MonadExceptOf.throw])
  · simp only [pure, Except.pure, Except.ok.injEq] at h
    rw [← h]

theorem mulDA_ok_unit {a b r : DataArray} (h : mulDA a b = .ok r) :
    r.unit = some (uMul (unitOf a) (unitOf b)) := by
  unfold mulDA at h
  obtain ⟨x, _, h⟩ := exBindOk h
  simp only [pure, Except.pure, Except.ok.injEq] at h
  rw [← h]

theorem evalEnv_unit_det (e : SymExpr) :
    ∀ (env1 env2 : List (String × DataArray)),
    (∀ k, (env1.lookup k).map DataArray.unit =
      (env2.lookup k).map DataArray.unit) →
    ∀ r1 r2, e.evalEnv env1 = .ok r1 → e.evalEnv env2 = .ok r2 →
    r1.unit = r2.unit := by
  induction e with
  | var n =>
    intro env1 env2 hagree r1 r2 h1 h2
    unfold SymExpr.evalEnv at h1 h2
    have hn := hagree n
    cases hl1 : env1.lookup n with
    | none => rw [hl1] at h1; exact absurd h1 (by simp)
    | some d1 =>
      cases hl2 : env2.lookup n with
      | none => rw [hl2] at h2; exact absurd h2 (by simp)
      | some d2 =>
        rw [hl1] at h1
        rw [hl2] at h2
        simp only [Except.ok.injEq] at h1 h2
        rw [hl1, hl2] at hn
        simp only [Option.map_some', Option.some.injEq] at hn
        rw [← h1, ← h2]
        exact hn
  | const q =>
    intro env1 env2 _ r1 r2 h1 h2
    have h1' : Except.ok (ε := PyErr) (scalarDA q) = Except.ok r1 := h1
    have h2' : Except.ok (ε := PyErr) (scalarDA q) = Except.ok r2 := h2
    rw [← Except.ok.inj h1', ← Except.ok.inj h2']
  | add a b iha ihb =>
    intro env1 env2 hagree r1 r2 h1 h2
    unfold SymExpr.evalEnv at h1 h2
    obtain ⟨ra1, ha1, h1⟩ := exBindOk h1
    obtain ⟨rb1, hb1, h1⟩ := exBindOk h1
    obtain ⟨ra2, ha2, h2⟩ := exBindOk h2
    obtain ⟨rb2, hb2, h2⟩ := exBindOk h2
    rw [addDA_ok_unit h1, addDA_ok_unit h2]
    have := iha env1 env2 hagree ra1 ra2 ha1 ha2
    unfold unitOf
    rw [this]
  | mul a b iha ihb =>
    intro env1 env2 hagree r1 r2 h1 h2
    unfold SymExpr.evalEnv at h1 h2
    obtain ⟨ra1, ha1, h1⟩ := exBindOk h1
    obtain ⟨rb1, hb1, h1⟩ := exBindOk h1
    obtain ⟨ra2, ha2, h2⟩ := exBindOk h2
    obtain ⟨rb2, hb2, h2⟩ := exBindOk h2
    rw [mulDA_ok_unit h1, mulDA_ok_unit h2]
    have hu1 := iha env1 env2 hagree ra1 ra2 ha1 ha2
    have hu2 := ihb env1 env2 hagree rb1 rb2 hb1 hb2
    unfold unitOf
    rw [hu1, hu2]

theorem evaluate_ok_evalEnv {me : MathematicalExpression}
    {kwargs : List (String × MEParamVal)} {r : DataArray}
    (h : me.evaluate kwargs = .ok r) :
    me.expression.evalEnv (evalEnvOf me kwargs) = .ok r := by
  unfold MathematicalExpression.evaluate at h
  split at h
  · exact absurd h (by simp)
  · exact h

theorem gsEvalArrays_none_ne_ok {me : MathematicalExpression}
    {dims : List (String × List String)} {units : List (String × UnitEx)}
    {u : UnitEx} (h : gsEvalArrays me dims units none = .ok u) : False := by
  unfold gsEvalArrays at h
  obtain ⟨_, _, h⟩ := exBindOk h
  obtain ⟨_, _, h⟩ := exBindOk h
  simp [throw, throwThe, MonadExceptOf.throw] at h

theorem gsEvalArrays_some_ok {me : MathematicalExpression}
    {dims : List (String × List String)} {units : List (String × UnitEx)}
    {c u : UnitEx} (h : gsEvalArrays me dims units (some c) = .ok u) :
    u = c := by
  unfold gsEvalArrays at h
  obtain ⟨_, _, h⟩ := exBindOk h
  obtain ⟨_, _, h⟩ := exBindOk h
  simp only [pure, Except.pure, Except.ok.injEq] at h
  exact h.symm

theorem gsEvalExpr_ok {me : MathematicalExpression}
    {dims : List (String × List String)} {units : List (String × UnitEx)}
    {u : UnitEx} (h : gsEvalExpr me dims units = .ok u) :
    ∃ res, me.evaluate (units.map (fun p =>
        (p.1, (Sum.inl (scalarQ 1 p.2) : MEParamVal)))) = .ok res ∧
      u = uReduce (unitOf res) := by
  unfold gsEvalExpr at h
  split at h
  · simp at h
  · exact absurd (gsEvalArrays_none_ne_ok h) (by simp)
  · simp at h
  · rename_i res heval
    exact ⟨res, heval, gsEvalArrays_some_ok h⟩

theorem gsInitExpression_ok {e : SymExpr}
    {dimsM : Option (List (String × List String))}
    {params : Option (List (String × MEParamIn))}
    {units : Option (List (String × UnitEx))} {gs : GenericSeries}
    (h : gsInitExpression e dimsM params units = .ok gs) :
    ∃ (me : MathematicalExpression) (units1 : List (String × UnitEx))
      (dims1 : List (String × List String)) (res : DataArray),
      gs = ⟨.inr me, some units1, some dims1, none,
        some (uReduce (unitOf res)), "linear"⟩ ∧
      me.evaluate (units1.map (fun p =>
        (p.1, (Sum.inl (scalarQ 1 p.2) : MEParamVal)))) = .ok res := by
  unfold gsInitExpression at h
  obtain ⟨ps, _, h⟩ := exBindOk h
  obtain ⟨me, _, h⟩ := exBindOk h
  split at h
  · simp [throw, throwThe, MonadExceptOf.throw] at h
  · obtain ⟨units0, _, h⟩ := exBindOk h
    obtain ⟨eunits, hev, h⟩ := exBindOk h
    simp only [pure, Except.pure, Except.ok.injEq] at h
    obtain ⟨res, heval, hu⟩ := gsEvalExpr_ok hev
    subst hu
    exact ⟨me, _, _, res, h.symm, heval⟩

theorem filtermap_all_some {α β : Type} (l : List α) (f : α → β) :
    l.filterMap (fun x => some (f x)) = l.map f := by
  induction l with
  | nil => rfl
  | cons a rest ih => simp [List.filterMap_cons, ih]

theorem gsInitDiscrete_da (d : DataArray) :
    gsInitDiscrete (.inr d) [] none =
      .ok ⟨.inl d, none, none, none, none, "linear"⟩ := rfl

theorem construct_expr_eq (e : SymExpr) (dimsA : GSDimsArg)
    (coords : Option (List (String × PQuantity)))
    (units0 : Option (List (String × UnitEx)))
    (params0 : Option (List (String × MEParamIn))) :
    GenericSeries.construct (.expr e) dimsA coords units0 params0 =
      gsInitExpression e
        (match dimsA with | .mapD m => some m | _ => none) params0 units0 := by
  cases dimsA <;> rfl

/-- C3 (amended): calling a fully-expression `GenericSeries` with every free
variable bound returns a new discrete `GenericSeries`; its `units` are the
unit of evaluating the expression at the supplied bindings, which equals the
probed output unit cached at construction time whenever the bindings are
supplied in the declared variable units and the resulting unit is stable
under pint unit reduction.  (As stated the claim fails: the call does not
convert binding units, so binding in a different unit of the same dimension
changes the resulting unit container.) -/
theorem C3_full_eval_units
    (e : SymExpr) (dimsA : GSDimsArg)
    (coords : Option (List (String × PQuantity)))
    (units0 : Option (List (String × UnitEx)))
    (params0 : Option (List (String × MEParamIn)))
    (gs : GenericSeries)
    (hcons : GenericSeries.construct (.expr e) dimsA coords units0 params0 = .ok gs)
    (kwargs : List (String × PQuantity)) (res : GenericSeries)
    (hcall : gs.callGS kwargs = .ok res)
    (hlen : kwargs.length = gs.numVariables)
    (hshape : ∀ kv ∈ kwargs, ∃ n, kv.2.qshape = [n])
    (hds : ∀ kv ∈ kwargs, ∃ d, (gs.symbolDims.getD []).lookup kv.1 = some [d])
    (hku : ∀ k q, kwargs.lookup k = some q →
      (gs.variableUnits.getD []).lookup k = some q.unit)
    (hks : ∀ k, (kwargs.lookup k).isSome =
      ((gs.variableUnits.getD []).lookup k).isSome)
    (hres : ∃ u, res.units = some u ∧ uReduce u = u) :
    res.units = gs.units ∧ ∃ dres, res.dataG = .inl dres := by
  rw [construct_expr_eq] at hcons
  obtain ⟨me, units1, dims1, res0, hgs, hprobe⟩ := gsInitExpression_ok hcons
  subst hgs
  have hbuild := gsBuildInput_expr
    ⟨.inr me, some units1, some dims1, none,
      some (uReduce (unitOf res0)), "linear"⟩ me dims1 kwargs rfl rfl
    (fun kv hkv => ⟨hshape kv hkv, hds kv hkv⟩)
  unfold GenericSeries.callGS at hcall
  rw [hbuild] at hcall
  simp only [Bind.bind, Except.bind] at hcall
  simp only [GenericSeries.numVariables] at hlen
  simp only [Option.getD_some] at hds hku hks
  rw [if_pos hlen] at hcall
  obtain ⟨data, hev, hinit⟩ := exBindOk hcall
  have hfm : ((kwargs.map (fun kv => (kv.1,
        (Sum.inl (exprInputDA dims1 kv) : Sum DataArray Coord)))).filterMap
      (fun p => match p.2 with
        | .inl d => some (p.1, (Sum.inr d : MEParamVal))
        | .inr _ => none)) =
      kwargs.map (fun kv => (kv.1, (Sum.inr (exprInputDA dims1 kv) : MEParamVal))) := by
    rw [List.filterMap_map]
    exact filtermap_all_some kwargs
      (fun kv => (kv.1, (Sum.inr (exprInputDA dims1 kv) : MEParamVal)))
  rw [hfm] at hev
  rw [gsInitDiscrete_da data] at hinit
  simp only [Except.ok.injEq] at hinit
  subst hinit
  have hev1 := evaluate_ok_evalEnv hprobe
  have hev2 := evaluate_ok_evalEnv hev
  have hagree : ∀ k,
      ((evalEnvOf me (kwargs.map (fun kv =>
        (kv.1, (Sum.inr (exprInputDA dims1 kv) : MEParamVal))))).lookup k).map
          DataArray.unit =
      ((evalEnvOf me (units1.map (fun p =>
        (p.1, (Sum.inl (scalarQ 1 p.2) : MEParamVal))))).lookup k).map
          DataArray.unit := by
    intro k
    unfold evalEnvOf
    rw [lookup_append_or, lookup_append_or]
    have hca : ((kwargs.map (fun kv =>
          (kv.1, (Sum.inr (exprInputDA dims1 kv) : MEParamVal)))).map
            (fun p => (p.1, wrapArg p.2))).lookup k =
        (kwargs.lookup k).map (fun q => exprInputDA dims1 (k, q)) := by
      rw [List.map_map]
      exact lookup_map_keyed kwargs (fun k q => exprInputDA dims1 (k, q)) k
    have hsc : ((units1.map (fun p =>
          (p.1, (Sum.inl (scalarQ 1 p.2) : MEParamVal)))).map
            (fun p => (p.1, wrapArg p.2))).lookup k =
        (units1.lookup k).map (fun u => daOfQ (scalarQ 1 u)) := by
      rw [List.map_map]
      exact lookup_map_keyed units1 (fun _ u => daOfQ (scalarQ 1 u)) k
    rw [hca, hsc]
    cases hlk : kwargs.lookup k with
    | some q =>
      rw [hku k q hlk]
      rfl
    | none =>
      have hn2 : units1.lookup k = none := by
        have := hks k
        rw [hlk] at this
        simp only [Option.isSome_none] at this
        cases h2 : List.lookup k units1
        · rfl
        · rw [h2] at this
          simp at this
      rw [hn2]
      rfl
  have hud : data.unit = res0.unit :=
    evalEnv_unit_det me.expression _ _ hagree data res0 hev2 hev1
  obtain ⟨u, hru, hredu⟩ := hres
  have hdu : data.unit = some u := hru
  constructor
  · show data.unit = _
    rw [hdu]
    show some u = (some (uReduce (unitOf res0))).orElse _
    have : unitOf res0 = u := by
      unfold unitOf
      rw [← hud, hdu]
      rfl
    rw [this, hredu]
    rfl
  · exact ⟨data, rfl⟩

/-- Counterexample for C3 as stated: the probed output unit of `a * t` is
`meter`, but binding the single variable `t` with a quantity in hours yields
a discrete series whose units are `hour * meter / second`, a different unit
container — the call does not convert binding units, so the result's units
need not equal the probed output unit. -/
theorem C3_counterexample :
    isOkE (C3gs.callGS [("t", listQ [1] uHour)]) = true ∧
    C3gs.units = some [("meter", 1)] ∧
    C3resHour.units = some [("hour", 1), ("meter", 1), ("second", -1)] ∧
    C3resHour.units ≠ C3gs.units := by
  refine ⟨by rfl, by rfl, by rfl, by decide⟩

/-- Witness for the amended C3: binding `t` in seconds (the declared unit)
yields a discrete series whose units equal the probed unit `meter`. -/
theorem C3_full_eval_units_witness :
    GenericSeries.construct (.expr (.mul (.var "a") (.var "t"))) .noneD
      none (some [("t", uSecond)]) (some [("a", .q (scalarQ 2 uMeterPerSecond))]) =
      .ok C3gs ∧
    C3gs.callGS [("t", listQ [3] uSecond)] = .ok C3resSec ∧
    (C3resSec.units = C3gs.units ∧ ∃ dres, C3resSec.dataG = .inl dres) :=
  ⟨rfl, rfl,
    C3_full_eval_units (.mul (.var "a") (.var "t")) .noneD none
      (some [("t", uSecond)]) (some [("a", .q (scalarQ 2 uMeterPerSecond))])
      C3gs (by rfl) [("t", listQ [3] uSecond)] C3resSec (by rfl) (by rfl)
      (by
        intro kv hkv
        rcases List.mem_singleton.mp hkv with rfl
        exact ⟨1, rfl⟩)
      (by
        intro kv hkv
        rcases List.mem_singleton.mp hkv with rfl
        exact ⟨"t", rfl⟩)
      (by
        intro k q h
        by_cases hk : (k == "t") = true
        · have hkeq := beq_iff_eq.mp hk
          subst hkeq
          simp only [List.lookup, beq_self_eq_true, Option.some.injEq] at h
          rw [← h]
          rfl
        · simp only [Bool.not_eq_true] at hk
          simp only [List.lookup, hk] at h
          exact Option.noConfusion h)
      (by
        intro k
        by_cases hk : (k == "t") = true
        · simp only [List.lookup, hk]
          rfl
        · simp only [Bool.not_eq_true] at hk
          simp only [List.lookup, hk]
          rfl)
      ⟨[("meter", 1)], by rfl, by rfl⟩⟩

/-- Every index into a shape whose outer dimension has size one starts
with index zero. -/
theorem mem_allIdx_one {ss : List Nat} {ix : List Nat}
    (h : ix ∈ allIdx (1 :: ss)) : ∃ r, ix = 0 :: r := by
  have hr1 : List.range 1 = [0] := by decide
  simp only [allIdx, hr1, List.flatMap_cons, List.flatMap_nil,
    List.append_nil, List.mem_map] at h
  obtain ⟨r, _, hr⟩ := h
  exact ⟨r, hr.symm⟩

/-- `tsPrepareDiscrete` on a quantity with a single-point time argument
always builds a single-instant array with the supplied time coordinate. -/
theorem c4_prep (p : PQuantity) (t : Frac) (ts1 : TimeSeries)
    (h : tsPrepareDiscrete (.inl p) (some (.inl ⟨[t], none⟩)) none = .ok ts1) :
    ∃ (rest : List Nat) (v : List Nat → Frac) (u0 : UnitEx),
      ts1 = ⟨.inl ⟨"time" :: (defaultDims (1 :: rest).length).drop 1, 1 :: rest, v,
        some u0, [("time", ⟨[t], CoordKind.timedelta, none⟩)], []⟩,
        none, none, none, 0, none⟩ := by
  simp only [tsPrepareDiscrete, timeOf, Bind.bind, Except.bind, Time.asCoord,
    tsCreateDataArray] at h
  rcases hq : p.qshape with _ | ⟨q0, qs⟩
  · rw [hq] at h
    rw [if_pos rfl] at h
    simp only [List.headD_cons, List.length_cons, List.length_nil,
      if_true] at h
    simp only [pure, Except.pure, Except.ok.injEq] at h
    exact ⟨[], fun _ => p.qval [], p.unit, h.symm⟩
  · rw [hq] at h
    rw [if_neg (List.cons_ne_nil q0 qs)] at h
    rw [hq] at h
    split at h
    · exact Except.noConfusion h
    · rename_i d hcd
      split at hcd
      · rename_i hq0
        simp only [Except.ok.injEq] at hcd
        subst hcd
        subst hq0
        simp only [pure, Except.pure, Except.ok.injEq] at h
        exact ⟨qs, p.qval, p.unit, h.symm⟩
      · exact Except.noConfusion hcd

/-- `tsInitializeDiscrete` on a quantity with a single-point time argument
always returns a single-instant series with `step` interpolation. -/
theorem c4_init (p : PQuantity) (t : Frac) (m : String) (ts2 : TimeSeries)
    (h : tsInitializeDiscrete (.inl p) (some (.inl ⟨[t], none⟩)) (some m) none =
      .ok ts2) :
    ∃ (rest : List Nat) (v : List Nat → Frac) (u0 : UnitEx),
      ts2 = ⟨.inl ⟨"time" :: (defaultDims (1 :: rest).length).drop 1, 1 :: rest, v,
        some u0, [("time", ⟨[t], CoordKind.timedelta, none⟩)],
        [("interpolation", "step")]⟩,
        none, none, none, 0, none⟩ := by
  unfold tsInitializeDiscrete at h
  obtain ⟨ts1, hprep, hset⟩ := exBindOk h
  obtain ⟨rest, v, u0, hts1⟩ := c4_prep p t ts1 hprep
  subst hts1
  simp only [Option.getD_some, TimeSeries.setInterpolation] at hset
  split at hset
  · simp only [TimeSeries.timeProp, timeLen, List.lookup, beq_self_eq_true,
      Option.map_some', Option.getD_some, List.length_cons, List.length_nil,
      gt_iff_lt, Nat.lt_irrefl, if_false, setAssoc] at hset
    by_cases hm : m = "step"
    · subst hm
      simp only [ne_eq, not_true_eq_false, and_false, if_false,
        Except.ok.injEq] at hset
      exact ⟨rest, v, u0, hset.symm⟩
    · simp only [ne_eq, hm, not_false_eq_true, and_true, Except.ok.injEq] at hset
      exact ⟨rest, v, u0, hset.symm⟩
  · exact Except.noConfusion hset

/-- `interp_time` of a discrete series at a single time point always returns
a freshly rebuilt single-instant array with `step` interpolation, the one
supplied time coordinate, and the predecessor's counter incremented. -/
theorem c4_first (ts : TimeSeries) (da : DataArray) (t : Frac) (tu : UnitEx)
    (t1 : TimeSeries) (hda : ts.dataTS = .inl da)
    (h1 : (ts.interp_time (.inl ⟨[t], none⟩) tu).2 = .ok t1) :
    ∃ (rest : List Nat) (v : List Nat → Frac) (u0 : UnitEx),
      t1 = ⟨.inl ⟨"time" :: (defaultDims (1 :: rest).length).drop 1, 1 :: rest, v,
        some u0, [("time", ⟨[t], CoordKind.timedelta, none⟩)],
        [("interpolation", "step")]⟩,
        none, none, none, ts.interpCounter + 1, none⟩ := by
  simp only [TimeSeries.interp_time] at h1
  obtain ⟨time0, htime, h1⟩ := exBindOk h1
  simp only [timeOf, Except.ok.injEq] at htime
  subst htime
  split at h1
  · rename_i da' heq
    rw [hda] at heq
    injection heq with heq'
    subst heq'
    split at h1
    · rename_i m hm
      obtain ⟨m', hp, h1⟩ := exBindOk h1
      simp only [pure, Except.pure, Except.ok.injEq] at hp
      subst hp
      obtain ⟨ts2, hinit, h1⟩ := exBindOk h1
      simp only [pure, Except.pure, Except.ok.injEq] at h1
      simp only [Time.withRef, Time.asCoord] at hinit
      obtain ⟨rest, v, u0, hts2⟩ := c4_init _ t _ ts2 hinit
      subst hts2
      refine ⟨rest, v, u0, ?_⟩
      rw [← h1]
    · simp [Bind.bind, Except.bind, throw, throwThe,
        MonadExceptOf.throw] at h1
  · rename_i me heq
    rw [hda] at heq
    exact Sum.noConfusion heq

/-- C4: interpolating a discrete series onto a single time point and then
interpolating the result onto the same point again returns a series equal
(by `TimeSeries.__eq__`) to the first interpolation result. -/
theorem C4_interp_time_idempotent (ts : TimeSeries) (da : DataArray) (t : Frac)
    (tu : UnitEx) (t1 : TimeSeries) (hda : ts.dataTS = .inl da)
    (h1 : (ts.interp_time (.inl ⟨[t], none⟩) tu).2 = .ok t1) :
    ∃ t2, (t1.interp_time (.inl ⟨[t], none⟩) tu).2 = .ok t2 ∧ eqTS t2 t1 := by
  obtain ⟨rest, v, u0, h⟩ := c4_first ts da t tu t1 hda h1
  subst h
  refine ⟨_, rfl, rfl, rfl, rfl, ?_, rfl, rfl, rfl⟩
  show (allIdx (1 :: rest)).map _ = (allIdx (1 :: rest)).map v
  apply List.map_congr_left
  intro ix hix
  obtain ⟨r, hr⟩ := mem_allIdx_one hix
  subst hr
  rfl

/-- Witness for C4: interpolating a concrete two-point series onto the
mid-range point `3/2` and re-interpolating onto the same point yields a
series equal to the first result. -/
theorem C4_interp_time_idempotent_witness :
    C4ts.dataTS = .inl C4da ∧
    (C4ts.interp_time (.inl ⟨[⟨3, 2⟩], none⟩) uSecond).2 = .ok C4t1 ∧
    ∃ t2, (C4t1.interp_time (.inl ⟨[⟨3, 2⟩], none⟩) uSecond).2 = .ok t2 ∧
      eqTS t2 C4t1 :=
  ⟨rfl, rfl, C4_interp_time_idempotent C4ts C4da ⟨3, 2⟩ uSecond C4t1 rfl rfl⟩

theorem gsExpand_unit (q : PQuantity) : (gsExpand q).unit = q.unit := by
  unfold gsExpand
  split <;> rfl

theorem findIdx_of_contains (l : List String) (k : String)
    (h : l.contains k = true) :
    ∃ i, l.findIdx? (fun x => x = k) = some i := by
  induction l with
  | nil => exact absurd h (by simp)
  | cons a as ih =>
    by_cases hak : a = k
    · exact ⟨0, by simp [List.findIdx?_cons, hak]⟩
    · have h' : as.contains k = true := by
        simp only [List.contains_cons, Bool.or_eq_true, beq_iff_eq] at h
        rcases h with h | h
        · exact absurd h.symm hak
        · exact h
      obtain ⟨i, hi⟩ := ih h'
      exact ⟨i + 1, by simp [List.findIdx?_cons, hak, hi]⟩

/-- The projections of `interpAlongDim` when the dimension is present: the
dimension names, unit and attributes are untouched, only the interpolated
dimension's size and coordinates change. -/
theorem interpAlongDim_props (da : DataArray) (k : String) (c : Coord)
    (m : String) (i : Nat)
    (hfind : da.dims.findIdx? (fun x => x = k) = some i) :
    (interpAlongDim da k c m).dims = da.dims ∧
    (interpAlongDim da k c m).shape = da.shape.set i c.vals.length ∧
    (interpAlongDim da k c m).unit = da.unit ∧
    (interpAlongDim da k c m).coords = setAssoc da.coords k c := by
  unfold interpAlongDim
  rw [hfind]
  exact ⟨rfl, rfl, rfl, rfl⟩

theorem gsBuildItem_missing (gs : GenericSeries) (da : DataArray) (k : String)
    (q : PQuantity) (hgs : gs.dataG = .inl da)
    (hnone : da.coords.lookup k = none) :
    gsBuildItem gs (k, q) = .error (.keyError k) := by
  unfold gsBuildItem
  simp only [hgs]
  rw [hnone]
  simp [Bind.bind, Except.bind, throw, throwThe, MonadExceptOf.throw]

theorem gsBuildItem_found (gs : GenericSeries) (da : DataArray) (k : String)
    (q : PQuantity) (c : Coord) (ref : UnitEx) (f : Frac)
    (hgs : gs.dataG = .inl da) (hc : da.coords.lookup k = some c)
    (href : c.unitAttr = some ref) (hf : uConvert q.unit ref = some f) :
    gsBuildItem gs (k, q) = .ok (k, .inr (gsTargetCoord q ref f)) := by
  have hexp : (if q.qshape = [] then
      (⟨[1], fun _ => q.qval [], q.unit⟩ : PQuantity) else q).unit = q.unit := by
    split <;> rfl
  unfold gsBuildItem
  simp only [hgs]
  rw [hc]
  simp only [Bind.bind, Except.bind, pure, Except.pure]
  rw [href, hexp]
  simp only [hf]
  rfl

/-- C9 (amended): calling a discrete `GenericSeries` with a key that is not
one of the data's coordinates fails with a bare `KeyError` naming the key —
the coordinate lookup happens before the dimension check, so the advertised
"not a valid dimension" error is only raised for a key that is a coordinate
but not a dimension.  With valid dimension keys, the call returns a new
discrete series interpolated onto the supplied coordinates (converted to the
coordinate's reference unit), with the dimension names, unit, and every other
dimension's coordinates untouched, and only the supplied dimension's size and
coordinates replaced. -/
theorem C9_discrete_call (gs : GenericSeries) (da : DataArray) (k : String)
    (q : PQuantity) (hgs : gs.dataG = .inl da) :
    (da.coords.lookup k = none →
      gs.callGS [(k, q)] = .error (.keyError k)) ∧
    (∀ c ref f, da.coords.lookup k = some c → c.unitAttr = some ref →
      uConvert q.unit ref = some f → da.dims.contains k = false →
      gs.callGS [(k, q)] = .error (.keyError (msgNotValidDimension k))) ∧
    (∀ c ref f, da.coords.lookup k = some c → c.unitAttr = some ref →
      uConvert q.unit ref = some f → da.dims.contains k = true →
      ∃ i, da.dims.findIdx? (fun x => x = k) = some i ∧
        gs.callGS [(k, q)] =
          .ok ⟨.inl (interpLike da [(k, gsTargetCoord q ref f)] "linear"),
            none, none, none, none, "linear"⟩ ∧
        (interpLike da [(k, gsTargetCoord q ref f)] "linear").dims = da.dims ∧
        (interpLike da [(k, gsTargetCoord q ref f)] "linear").shape =
          da.shape.set i (gsTargetCoord q ref f).vals.length ∧
        (interpLike da [(k, gsTargetCoord q ref f)] "linear").unit = da.unit ∧
        (∀ d, d ≠ k →
          (interpLike da [(k, gsTargetCoord q ref f)] "linear").coords.lookup d =
            da.coords.lookup d) ∧
        (interpLike da [(k, gsTargetCoord q ref f)] "linear").coords.lookup k =
          some (gsTargetCoord q ref f)) := by
  refine ⟨?_, ?_, ?_⟩
  · intro hnone
    have hinput : gsBuildInput gs [(k, q)] = .error (.keyError k) := by
      unfold gsBuildInput
      rw [gsBuildItem_missing gs da k q hgs hnone]
      rfl
    unfold GenericSeries.callGS
    rw [hinput]
    rfl
  · intro c ref f hc href hf hnc
    have hinput : gsBuildInput gs [(k, q)] =
        .ok [(k, .inr (gsTargetCoord q ref f))] := by
      unfold gsBuildInput
      rw [gsBuildItem_found gs da k q c ref f hgs hc href hf]
      rfl
    unfold GenericSeries.callGS
    rw [hinput]
    simp only [Bind.bind, Except.bind, hgs]
    unfold gsCheckDims
    rw [hnc]
    rfl
  · intro c ref f hc href hf hcont
    obtain ⟨i, hi⟩ := findIdx_of_contains da.dims k hcont
    have hinput : gsBuildInput gs [(k, q)] =
        .ok [(k, .inr (gsTargetCoord q ref f))] := by
      unfold gsBuildInput
      rw [gsBuildItem_found gs da k q c ref f hgs hc href hf]
      rfl
    have hIL : interpLike da [(k, gsTargetCoord q ref f)] "linear" =
        interpAlongDim da k (gsTargetCoord q ref f) "linear" := rfl
    obtain ⟨hdims, hshape, hunit, hcoords⟩ :=
      interpAlongDim_props da k (gsTargetCoord q ref f) "linear" i hi
    refine ⟨i, hi, ?_, ?_, ?_, ?_, ?_, ?_⟩
    · unfold GenericSeries.callGS
      rw [hinput]
      simp only [Bind.bind, Except.bind, hgs]
      unfold gsCheckDims
      rw [hcont]
      rfl
    · rw [hIL]; exact hdims
    · rw [hIL]; exact hshape
    · rw [hIL]; exact hunit
    · intro d hd
      rw [hIL, hcoords]
      exact lookup_setAssoc_ne da.coords k d (gsTargetCoord q ref f) hd
    · rw [hIL, hcoords]
      exact lookup_setAssoc_self da.coords k (gsTargetCoord q ref f)

/-- Counterexample for C9 as stated: calling a discrete series whose only
dimension is `x` with the invalid key `z` raises a bare `KeyError` naming the
key — produced by the coordinate lookup that precedes the dimension check —
not the advertised "not a valid dimension" error. -/
theorem C9_counterexample :
    C9gs.callGS [("z", listQ [0] uSecond)] = .error (.keyError "z") ∧
    PyErr.keyError "z" ≠ .keyError (msgNotValidDimension "z") :=
  ⟨rfl, by decide⟩

/-- Witness for the amended C9: the invalid key `z` gives the bare
`KeyError`, the non-dimension coordinate `y` gives the "not a valid
dimension" error, and the valid key `x` interpolates onto the supplied
coordinates leaving everything else untouched. -/
theorem C9_discrete_call_witness :
    (C9gs.callGS [("z", C9q)] = .error (.keyError "z")) ∧
    (C9gs.callGS [("y", C9q)] =
      .error (.keyError (msgNotValidDimension "y"))) ∧
    (∃ i, C9da.dims.findIdx? (fun x => x = "x") = some i ∧
      C9gs.callGS [("x", C9q)] =
        .ok ⟨.inl C9res, none, none, none, none, "linear"⟩ ∧
      C9res.dims = C9da.dims ∧
      C9res.shape = C9da.shape.set i C9c.vals.length ∧
      C9res.unit = C9da.unit ∧
      (∀ d, d ≠ "x" → C9res.coords.lookup d = C9da.coords.lookup d) ∧
      C9res.coords.lookup "x" = some C9c) :=
  ⟨(C9_discrete_call C9gs C9da "z" C9q rfl).1 rfl,
    (C9_discrete_call C9gs C9da "y" C9q rfl).2.1
      ⟨[5], CoordKind.plain, some uSecond⟩ uSecond ⟨1, 1⟩ rfl rfl rfl rfl,
    (C9_discrete_call C9gs C9da "x" C9q rfl).2.2
      ⟨[0, 1], CoordKind.plain, some uSecond⟩ uSecond ⟨1, 1⟩ rfl rfl rfl rfl⟩

end WeldxSpec
